import Mathlib

/-!
Verification development for the flair `ModelTrainer` module
(`src/flair/trainers/trainer.py`).

The Python class is shallowly embedded below.  Python floats are modelled as
rationals (`ℚ`); in the learning-rate finder, where NaN detection matters,
floats carry an explicit NaN flag (`Fl`).  The external collaborators named in
the specification (the trainable model, the tensor engine, the metric
implementation, the random shuffle) are passed in as a parameter record
(`TrainEnv` / `FlrEnv`): the model is an opaque value of type `M` acted on by
the environment's `forwardLoss` / `stepModel` / `evalModel` functions, and the
model capability's `state_dict` / `load_state_dict` pair is modelled, per the
specification's external-interface contract, as snapshot and wholesale restore
of that value.  File-system effects and other observable actions are recorded
as an ordered event trace (`Ev`).
-/

/-- The evaluation-metric selector (`EvaluationMetric` in
`flair.training_utils`, consumed by `trainer.py`). -/
inductive EvalMetric where
  | microF1Score
  | macroF1Score
  | microAccuracy
  | macroAccuracy
deriving DecidableEq, Repr

/-- External metric capability: the four aggregate values that `trainer.py`
reads off an evaluation `Metric` object. -/
structure MetricT where
  microAvgFScore : ℚ
  macroAvgFScore : ℚ
  microAvgAccuracy : ℚ
  macroAvgAccuracy : ℚ
deriving DecidableEq, Repr

/-- The metric aggregate chosen by the `evaluation_metric` selector
(`trainer.py` lines 206-213 and 299-306 use the identical dispatch). -/
def metricAggregate (em : EvalMetric) (m : MetricT) : ℚ :=
  match em with
  | .macroAccuracy => m.macroAvgAccuracy
  | .microAccuracy => m.microAvgAccuracy
  | .macroF1Score => m.macroAvgFScore
  | .microF1Score => m.microAvgFScore

/-- Scheduling direction: `anneal_mode = 'min' if anneal_against_train_loss
else 'max'` (`trainer.py` line 86). -/
inductive AnnealMode where
  | min
  | max
deriving DecidableEq, Repr

/-- Modelled from the spec: the plateau scheduler's observable state
(`ReduceLROnPlateau` / `ReduceLRWDOnPlateau` are external to `src/`).  The
spec's PlateauState is {best score, bad-epoch count}; `best` is `none` before
the first observed score. -/
structure SchedState where
  best : Option ℚ
  numBadEpochs : ℕ
deriving DecidableEq, Repr

/-- Modelled from the spec: "if current score improves on best-so-far by any
positive margin, record as new best" — strict improvement in the
configured direction; the first observed score always improves. -/
def isImprovement (mode : AnnealMode) (score : ℚ) (best : Option ℚ) : Bool :=
  match best with
  | none => true
  | some b =>
    match mode with
    | .min => decide (score < b)
    | .max => decide (b < score)

/-- Modelled from the spec: one `scheduler.step(score)` of the plateau
scheduler.  On improvement the score becomes the new best and the bad-epoch
counter resets; otherwise the counter increments, and when it exceeds the
patience the learning rate is multiplied by the anneal factor and the counter
resets.  Returns the new scheduler state and the new learning rate. -/
def schedStep (mode : AnnealMode) (factor : ℚ) (patience : ℕ)
    (s : SchedState) (lr : ℚ) (score : ℚ) : SchedState × ℚ :=
  if isImprovement mode score s.best then
    (⟨some score, 0⟩, lr)
  else
    let bad := s.numBadEpochs + 1
    if patience < bad then
      (⟨s.best, 0⟩, lr * factor)
    else
      (⟨s.best, bad⟩, lr)

/-- Python's `range(a, b)` as a list (`trainer.py` line 112). -/
def pyRange (a b : ℕ) : List ℕ :=
  List.range' a (b - a)

/-- Structural worker for `listChunks`.  The first argument is fuel, always
instantiated with the list's length, which bounds the recursion depth: each
step removes at least one element, so the `0, _ :: _` case is unreachable
from `listChunks`.  (Fuel keeps the recursion structural so that concrete
runs reduce definitionally.) -/
def chunksGo (bs : ℕ) : ℕ → List α → List (List α)
  | _, [] => []
  | 0, _ :: _ => []
  | fuel + 1, x :: xs =>
    if bs = 0 then []
    else (x :: xs).take bs :: chunksGo bs fuel (xs.drop (bs - 1))

/-- The mini-batch partition
`[train_data[x:x + mini_batch_size] for x in range(0, len(train_data), mini_batch_size)]`
(`trainer.py` line 140): successive slices of size `bs`, the last one possibly
shorter.  (Python raises on step 0; the claims only use `bs > 0`.) -/
def listChunks (bs : ℕ) (l : List α) : List (List α) :=
  chunksGo bs l.length l

/-- Observable actions of the trainer, recorded in source order. -/
inductive Ev where
  | createFile (name : String)
  | writeHeader (name : String)
  | epochStart (epoch : ℕ) (lr : ℚ)
  | loadBestModel (epoch : ℕ)
  | lrTooSmall (epoch : ℕ)
  | batchDone (epoch : ℕ) (batchNo : ℕ)
  | progressLog (epoch : ℕ) (batchNo : ℕ)
  | extractWeights (iteration : ℕ)
  | evalRun (name : String)
  | writeTestTsv
  | lossRow (epoch : ℕ) (badEpochs : ℕ) (lr : ℚ) (trainLoss : ℚ)
  | saveCheckpoint (epoch : ℕ)
  | saveBestModel (epoch : ℕ)
  | saveFinalModel
  | finalTestRun
  | noTestDataLog
deriving DecidableEq, Repr

/-- The corpus capability: `train`, `dev`, `test` splits, plus the
`MultiCorpus` case with named sub-corpora (each with its own test split). -/
structure CorpusT (Ex : Type) where
  train : List Ex
  dev : List Ex
  test : List Ex
  isMulti : Bool
  subcorpora : List (String × List Ex)

/-- The `ModelTrainer` constructor state (`trainer.py` lines 21-36).  The
optimizer state is modelled by its scheduling-relevant content, the restored
learning rate. -/
structure TrainerState (Ex M : Type) where
  model : M
  corpus : CorpusT Ex
  epoch : ℕ
  loss : ℚ
  optimizerStateLr : Option ℚ
  schedulerState : Option SchedState

/-- `ModelTrainer.load_from_checkpoint` (`trainer.py` lines 332-336): a fresh
trainer seeded from the checkpoint bundle. -/
structure CheckpointT (M : Type) where
  model : M
  epoch : ℕ
  loss : ℚ
  optimizerStateLr : Option ℚ
  schedulerState : Option SchedState

def loadFromCheckpoint {Ex M : Type} (ckpt : CheckpointT M) (corpus : CorpusT Ex) :
    TrainerState Ex M :=
  { model := ckpt.model
    corpus := corpus
    epoch := ckpt.epoch
    loss := ckpt.loss
    optimizerStateLr := ckpt.optimizerStateLr
    schedulerState := ckpt.schedulerState }

/-- The epoch indices iterated by the training loop:
`for epoch in range(0 + self.epoch, max_epochs + self.epoch)`
(`trainer.py` line 112). -/
def trainEpochIndices (selfEpoch maxEpochs : ℕ) : List ℕ :=
  pyRange (0 + selfEpoch) (maxEpochs + selfEpoch)

/-- External collaborators of `train()`: loss computation on the current model,
the combined effect of `zero_grad`/`backward`/`clip_grad_norm_`/`optimizer.step`
on the model, dataset evaluation, and the random shuffle (indexed by how many
shuffles have happened, since each call draws fresh randomness). -/
structure TrainEnv (Ex M : Type) where
  forwardLoss : M → List Ex → ℚ
  stepModel : M → ℚ → List Ex → M
  evalModel : M → List Ex → ℕ → MetricT × ℚ
  shuffle : ℕ → List Ex → List Ex

/-- The keyword arguments of `ModelTrainer.train` (`trainer.py` lines 38-56),
plus the external-interrupt scenario: `interruptAt = some e` means a
`KeyboardInterrupt` arrives at the start of epoch `e`'s iteration. -/
structure TrainCfg where
  evaluationMetric : EvalMetric
  learningRate : ℚ
  miniBatchSize : ℕ
  evalMiniBatchSize : Option ℕ
  maxEpochs : ℕ
  annealFactor : ℚ
  patience : ℕ
  annealAgainstTrainLoss : Bool
  trainWithDev : Bool
  monitorTrain : Bool
  checkpointEnabled : Bool
  saveFinalModel : Bool
  annealWithRestarts : Bool
  testMode : Bool
  paramSelectionMode : Bool
  interruptAt : Option ℕ

/-- The learning-rate floor of `trainer.py` line 131. -/
def lrFloor : ℚ := 1 / 10000

/-- The mutable state threaded through the epoch loop of `train()`:
the model, the (aliased, in-place mutated) `train_data` list, the optimizer's
learning rate, `previous_learning_rate`, the scheduler state, the best-model
artifact on disk, the three histories, and a counter of shuffle calls. -/
structure LoopState (Ex M : Type) where
  model : M
  trainData : List Ex
  lr : ℚ
  prevLr : ℚ
  sched : SchedState
  bestArtifact : Option M
  devScoreHistory : List ℚ
  devLossHistory : List ℚ
  trainLossHistory : List ℚ
  shuffleCount : ℕ

/-- Result of the inner batch loop (`trainer.py` lines 148-166). -/
structure BatchOut (M : Type) where
  model : M
  totalLoss : ℚ
  seenSentences : ℕ
  events : List Ev

/-- The inner batch loop (`trainer.py` lines 148-166): per batch, compute the
loss on the current model, apply one optimizer update, accumulate
`train_loss += loss.item()` and `seen_sentences += len(batch)`, and every
`modulo` batches log progress and (outside parameter-selection mode) extract
weight statistics at iteration `epoch * len(batches) + batch_no`. -/
def runBatches {Ex M : Type} (env : TrainEnv Ex M) (paramSel : Bool)
    (e nBatches modulo : ℕ) (lr : ℚ) :
    M → ℕ → ℚ → ℕ → List (List Ex) → BatchOut M
  | m, _, acc, seen, [] => ⟨m, acc, seen, []⟩
  | m, bn, acc, seen, b :: rest =>
    let l := env.forwardLoss m b
    let m2 := env.stepModel m lr b
    let evs := [Ev.batchDone e bn] ++
      (if bn % modulo = 0 then
        [Ev.progressLog e bn] ++
          (if !paramSel then [Ev.extractWeights (e * nBatches + bn)] else [])
      else [])
    let out := runBatches env paramSel e nBatches modulo lr m2 (bn + 1) (acc + l)
      (seen + b.length) rest
    ⟨out.model, out.totalLoss, out.seenSentences, evs ++ out.events⟩

/-- `_calculate_evaluation_results_for` (`trainer.py` lines 310-330): run the
model's evaluation on a dataset, optionally writing `test.tsv`, and log the
result. -/
def calcEvalResultsFor {Ex M : Type} (env : TrainEnv Ex M) (m : M)
    (datasetName : String) (dataset : List Ex) (evalBS : ℕ)
    (writesTestTsv : Bool) : (MetricT × ℚ) × List Ev :=
  (env.evalModel m dataset evalBS,
    [Ev.evalRun datasetName] ++ (if writesTestTsv then [Ev.writeTestTsv] else []))

/-- Result of one epoch body, with the scheduling score exposed. -/
structure EpochOut (Ex M : Type) where
  state : LoopState Ex M
  events : List Ev
  currentScore : ℚ

/-- `trainer.py` lines 137-138: the value of `train_data` for this epoch —
shuffled in place unless in test mode. -/
def epochTd {Ex M : Type} (env : TrainEnv Ex M) (cfg : TrainCfg)
    (s : LoopState Ex M) : List Ex :=
  if cfg.testMode then s.trainData else env.shuffle s.shuffleCount s.trainData

/-- `trainer.py` lines 140-166: the epoch's batch loop, run over the
mini-batch partition of this epoch's `train_data`, with
`modulo = max(1, len(batches) // 10)`. -/
def epochBr {Ex M : Type} (env : TrainEnv Ex M) (cfg : TrainCfg)
    (s : LoopState Ex M) (e : ℕ) (lr : ℚ) : BatchOut M :=
  runBatches env cfg.paramSelectionMode e
    (listChunks cfg.miniBatchSize (epochTd env cfg s)).length
    (max 1 ((listChunks cfg.miniBatchSize (epochTd env cfg s)).length / 10)) lr
    s.model 0 0 0 (listChunks cfg.miniBatchSize (epochTd env cfg s))

/-- `trainer.py` line 168: `train_loss /= len(train_data)`. -/
def epochMeanLoss {Ex M : Type} (env : TrainEnv Ex M) (cfg : TrainCfg)
    (s : LoopState Ex M) (e : ℕ) (lr : ℚ) : ℚ :=
  (epochBr env cfg s e lr).totalLoss / ((epochTd env cfg s).length : ℚ)

/-- `trainer.py` lines 181-183: the optional TRAIN-split evaluation (run on
the mutated `self.corpus.train`, i.e. this epoch's `train_data`). -/
def epochTrainEval {Ex M : Type} (env : TrainEnv Ex M) (cfg : TrainCfg)
    (evalBS : ℕ) (s : LoopState Ex M) (e : ℕ) (lr : ℚ) :
    Option ((MetricT × ℚ) × List Ev) :=
  if cfg.monitorTrain then
    some (calcEvalResultsFor env (epochBr env cfg s e lr).model "TRAIN"
      (epochTd env cfg s) evalBS false)
  else none

/-- The epoch's `train_loss` after lines 181-183 (the monitor-train
evaluation overwrites the mean loss of line 168). -/
def epochTrainLoss {Ex M : Type} (env : TrainEnv Ex M) (cfg : TrainCfg)
    (evalBS : ℕ) (s : LoopState Ex M) (e : ℕ) (lr : ℚ) : ℚ :=
  match epochTrainEval env cfg evalBS s e lr with
  | some r => r.1.2
  | none => epochMeanLoss env cfg s e lr

/-- `trainer.py` lines 185-187: the DEV-split evaluation, unless training
with dev. -/
def epochDevEval {Ex M : Type} (env : TrainEnv Ex M) (cfg : TrainCfg)
    (evalBS : ℕ) (dev : List Ex) (s : LoopState Ex M) (e : ℕ) (lr : ℚ) :
    Option ((MetricT × ℚ) × List Ev) :=
  if !cfg.trainWithDev then
    some (calcEvalResultsFor env (epochBr env cfg s e lr).model "DEV" dev evalBS false)
  else none

/-- `trainer.py` lines 189-192: the TEST-split evaluation (writes `test.tsv`),
outside parameter-selection mode and only when a test split exists. -/
def epochTestEval {Ex M : Type} (env : TrainEnv Ex M) (cfg : TrainCfg)
    (evalBS : ℕ) (test : List Ex) (s : LoopState Ex M) (e : ℕ) (lr : ℚ) :
    Option ((MetricT × ℚ) × List Ev) :=
  if !cfg.paramSelectionMode && !test.isEmpty then
    some (calcEvalResultsFor env (epochBr env cfg s e lr).model "TEST" test evalBS true)
  else none

/-- `trainer.py` lines 203-213: the dev score under the configured metric
(0 when no dev evaluation ran). -/
def epochDevScore {Ex M : Type} (env : TrainEnv Ex M) (cfg : TrainCfg)
    (evalBS : ℕ) (dev : List Ex) (s : LoopState Ex M) (e : ℕ) (lr : ℚ) : ℚ :=
  match epochDevEval env cfg evalBS dev s e lr with
  | some r => metricAggregate cfg.evaluationMetric r.1.1
  | none => 0

/-- `trainer.py` line 220: the scheduling score — mean training loss when
annealing against the training loss, else the dev score. -/
def epochCurrentScore {Ex M : Type} (env : TrainEnv Ex M) (cfg : TrainCfg)
    (evalBS : ℕ) (dev : List Ex) (s : LoopState Ex M) (e : ℕ) (lr : ℚ) : ℚ :=
  if cfg.annealAgainstTrainLoss then epochTrainLoss env cfg evalBS s e lr
  else epochDevScore env cfg evalBS dev s e lr

/-- `trainer.py` line 222: the scheduler step on this epoch's score. -/
def epochSchedStep {Ex M : Type} (env : TrainEnv Ex M) (cfg : TrainCfg)
    (mode : AnnealMode) (evalBS : ℕ) (dev : List Ex) (s : LoopState Ex M)
    (e : ℕ) (lr : ℚ) : SchedState × ℚ :=
  schedStep mode cfg.annealFactor cfg.patience s.sched lr
    (epochCurrentScore env cfg evalBS dev s e lr)

/-- `trainer.py` line 233: the best-model save condition —
`not train_with_dev and not param_selection_mode and current_score == scheduler.best`,
where `scheduler.best` is read after the step of line 222. -/
def epochSaveBest {Ex M : Type} (env : TrainEnv Ex M) (cfg : TrainCfg)
    (mode : AnnealMode) (evalBS : ℕ) (dev : List Ex) (s : LoopState Ex M)
    (e : ℕ) (lr : ℚ) : Bool :=
  (!cfg.trainWithDev && !cfg.paramSelectionMode) &&
    decide (some (epochCurrentScore env cfg evalBS dev s e lr) =
      (epochSchedStep env cfg mode evalBS dev s e lr).1.best)

/-- The events of the three evaluation calls of lines 181-192, in order. -/
def epochEvalEvents {Ex M : Type} (env : TrainEnv Ex M) (cfg : TrainCfg)
    (evalBS : ℕ) (dev test : List Ex) (s : LoopState Ex M) (e : ℕ) (lr : ℚ) :
    List Ev :=
  (match epochTrainEval env cfg evalBS s e lr with | some r => r.2 | none => []) ++
  (match epochDevEval env cfg evalBS dev s e lr with | some r => r.2 | none => []) ++
  (match epochTestEval env cfg evalBS test s e lr with | some r => r.2 | none => [])

/-- One epoch body of `train()` after the learning-rate-floor check
(`trainer.py` lines 137-234): shuffle (unless test mode), batch, run the batch
loop, normalize the accumulated loss by `len(train_data)`, run the optional
TRAIN / the DEV / the optional TEST evaluations, append the `loss.tsv` row,
compute the scheduling score, step the plateau scheduler, and perform the
checkpoint and best-model saves.  (`bad_epochs` in the `loss.tsv` row is the
value read at line 116, before the scheduler step.) -/
def epochBody {Ex M : Type} (env : TrainEnv Ex M) (cfg : TrainCfg)
    (mode : AnnealMode) (evalBS : ℕ) (dev test : List Ex)
    (s : LoopState Ex M) (e : ℕ) (lr : ℚ) : EpochOut Ex M :=
  { state :=
      { model := (epochBr env cfg s e lr).model
        trainData := epochTd env cfg s
        lr := (epochSchedStep env cfg mode evalBS dev s e lr).2
        prevLr := s.prevLr
        sched := (epochSchedStep env cfg mode evalBS dev s e lr).1
        bestArtifact := if epochSaveBest env cfg mode evalBS dev s e lr then
            some (epochBr env cfg s e lr).model
          else s.bestArtifact
        devScoreHistory := match epochDevEval env cfg evalBS dev s e lr with
          | some r => s.devScoreHistory ++ [metricAggregate cfg.evaluationMetric r.1.1]
          | none => s.devScoreHistory
        devLossHistory := match epochDevEval env cfg evalBS dev s e lr with
          | some r => s.devLossHistory ++ [r.1.2]
          | none => s.devLossHistory
        trainLossHistory := s.trainLossHistory ++ [epochTrainLoss env cfg evalBS s e lr]
        shuffleCount := if cfg.testMode then s.shuffleCount else s.shuffleCount + 1 }
    events := (epochBr env cfg s e lr).events ++
      epochEvalEvents env cfg evalBS dev test s e lr ++
      (if !cfg.paramSelectionMode then
        [Ev.lossRow e s.sched.numBadEpochs lr (epochTrainLoss env cfg evalBS s e lr)]
       else []) ++
      (if cfg.checkpointEnabled && !cfg.paramSelectionMode then
        [Ev.saveCheckpoint (e + 1)] else []) ++
      (if epochSaveBest env cfg mode evalBS dev s e lr then
        [Ev.saveBestModel e] else [])
    currentScore := epochCurrentScore env cfg evalBS dev s e lr }

/-- Result of the whole epoch loop. -/
structure EpochsOut (Ex M : Type) where
  state : LoopState Ex M
  events : List Ev
  interrupted : Bool
  completed : ℕ

/-- The epoch loop of `train()` (`trainer.py` lines 109-234): per epoch index,
check for an external interrupt, read the learning rate, reload the best-model
artifact when annealing with restarts after a rate drop, stop when the rate is
below the floor, otherwise run the epoch body and continue.  `completed`
counts fully executed epoch bodies. -/
def runEpochs {Ex M : Type} (env : TrainEnv Ex M) (cfg : TrainCfg)
    (mode : AnnealMode) (evalBS : ℕ) (dev test : List Ex) :
    LoopState Ex M → List ℕ → EpochsOut Ex M
  | s, [] => ⟨s, [], false, 0⟩
  | s, e :: rest =>
    if cfg.interruptAt = some e then ⟨s, [], true, 0⟩
    else
      -- lines 116-120
      let lr := s.lr
      -- lines 122-126
      let reload := (decide (lr ≠ s.prevLr) && cfg.annealWithRestarts &&
        s.bestArtifact.isSome)
      let s1 := if reload then { s with model := s.bestArtifact.getD s.model } else s
      let loadEvs := if reload then [Ev.loadBestModel e] else []
      -- line 128
      let s2 := { s1 with prevLr := lr }
      -- lines 130-135
      if lr < lrFloor then
        ⟨s2, [Ev.epochStart e lr] ++ loadEvs ++ [Ev.lrTooSmall e], false, 0⟩
      else
        let r := epochBody env cfg mode evalBS dev test s2 e lr
        let out := runEpochs env cfg mode evalBS dev test r.state rest
        ⟨out.state, [Ev.epochStart e lr] ++ loadEvs ++ r.events ++ out.events,
          out.interrupted, out.completed + 1⟩

/-- Result of `final_test` (`trainer.py` lines 260-308). -/
structure FinalTestOut (M : Type) where
  score : ℚ
  events : List Ev
  model : M

/-- `final_test` (`trainer.py` lines 260-308): reload the best-model artifact
when present, evaluate the test split, log per-class results, evaluate each
sub-corpus of a `MultiCorpus` (writing `test.tsv`), and return the configured
aggregate of the test metric. -/
def finalTest {Ex M : Type} (env : TrainEnv Ex M) (evalBS : ℕ) (em : EvalMetric)
    (corpus : CorpusT Ex) (model : M) (bestArtifact : Option M) : FinalTestOut M :=
  let m := bestArtifact.getD model
  let r := env.evalModel m corpus.test evalBS
  let multiEvs := if corpus.isMulti then
      corpus.subcorpora.flatMap (fun sc => [Ev.evalRun sc.1, Ev.writeTestTsv]) else []
  ⟨metricAggregate em r.1, [Ev.finalTestRun] ++ multiEvs, m⟩

/-- Values of the result dictionary returned by `train()`. -/
inductive DVal where
  | num (q : ℚ)
  | qlist (qs : List ℚ)
deriving DecidableEq, Repr

/-- The literal dictionary built by the `return` statement of `train()`
(`trainer.py` lines 255-258). -/
def trainReturnDict (testScore : ℚ)
    (devScoreHistory trainLossHistory devLossHistory : List ℚ) :
    List (String × DVal) :=
  [("test_score", DVal.num testScore),
   ("dev_score_history", DVal.qlist devScoreHistory),
   ("train_loss_history", DVal.qlist trainLossHistory),
   ("dev_loss_history", DVal.qlist devLossHistory)]

/-- Observable outcome of a `train()` call: the returned dictionary, the event
trace, the final value of the (mutated) `self.corpus.train` list, the final
model, and interruption bookkeeping. -/
structure TrainOut (Ex M : Type) where
  dict : List (String × DVal)
  events : List Ev
  corpusTrain : List Ex
  finalModel : M
  completedEpochs : ℕ
  interrupted : Bool

/-- `ModelTrainer.train` (`trainer.py` lines 38-258).  `preexistingBest` is the
content of a `best-model.pt` file already on disk before the call, if any. -/
def train {Ex M : Type} (env : TrainEnv Ex M) (t : TrainerState Ex M)
    (cfg : TrainCfg) (preexistingBest : Option M) : TrainOut Ex M :=
  -- lines 59-60
  let evalBS := cfg.evalMiniBatchSize.getD cfg.miniBatchSize
  -- line 66: add_file_handler — modelled from the spec: attaches the
  -- free-text `training.log` output, creating that file
  let evs0 := [Ev.createFile "training.log"]
  -- lines 71-79: init_output_file — modelled from the spec: creates
  -- `loss.tsv`; then the header row is appended
  let evs1 := if !cfg.paramSelectionMode then
      [Ev.createFile "loss.tsv", Ev.writeHeader "loss.tsv"] else []
  -- lines 81-83: optimizer creation; a restored optimizer state restores
  -- its per-group learning rate
  let lr0 := t.optimizerStateLr.getD cfg.learningRate
  -- lines 85-96
  let mode := if cfg.annealAgainstTrainLoss then AnnealMode.min else AnnealMode.max
  let sched0 := t.schedulerState.getD ⟨none, 0⟩
  -- lines 98-102: train_data aliases self.corpus.train; with train_with_dev
  -- the dev split is appended in place
  let trainData0 := t.corpus.train ++ (if cfg.trainWithDev then t.corpus.dev else [])
  let s0 : LoopState Ex M :=
    { model := t.model, trainData := trainData0, lr := lr0,
      prevLr := cfg.learningRate, sched := sched0, bestArtifact := preexistingBest,
      devScoreHistory := [], devLossHistory := [], trainLossHistory := [],
      shuffleCount := 0 }
  -- lines 109-234
  let out := runEpochs env cfg mode evalBS t.corpus.dev t.corpus.test s0
    (trainEpochIndices t.epoch cfg.maxEpochs)
  -- lines 236-246: final-model save on normal exit, or in the interrupt handler
  let finalEvs := if out.interrupted then
      (if !cfg.paramSelectionMode then [Ev.saveFinalModel] else [])
    else
      (if cfg.saveFinalModel && !cfg.paramSelectionMode then [Ev.saveFinalModel] else [])
  -- lines 248-253
  let testPhase := if !t.corpus.test.isEmpty then
      (let ft := finalTest env evalBS cfg.evaluationMetric t.corpus
        out.state.model out.state.bestArtifact
       (ft.score, ft.events, ft.model))
    else ((0 : ℚ), [Ev.noTestDataLog], out.state.model)
  -- lines 255-258
  { dict := trainReturnDict testPhase.1 out.state.devScoreHistory
      out.state.trainLossHistory out.state.devLossHistory
    events := evs0 ++ evs1 ++ out.events ++ finalEvs ++ testPhase.2.1
    corpusTrain := out.state.trainData
    finalModel := testPhase.2.2
    completedEpochs := out.completed
    interrupted := out.interrupted }

/-- A Python float as used by the learning-rate finder: a rational value with
an explicit NaN flag.  Arithmetic propagates NaN; ordered comparisons
involving a NaN are false, as in IEEE arithmetic. -/
structure Fl where
  val : ℚ
  nan : Bool
deriving DecidableEq, Repr

def Fl.addF (a b : Fl) : Fl := ⟨a.val + b.val, a.nan || b.nan⟩

def Fl.mulQ (q : ℚ) (a : Fl) : Fl := ⟨q * a.val, a.nan⟩

def Fl.divQ (a : Fl) (q : ℚ) : Fl := ⟨a.val / q, a.nan⟩

def Fl.ltF (a b : Fl) : Bool := !a.nan && !b.nan && decide (a.val < b.val)

def Fl.gtF (a b : Fl) : Bool := !a.nan && !b.nan && decide (b.val < a.val)

/-- External collaborators of `find_learning_rate`.  `lrAfter k` is the
optimizer's learning rate after `k` scheduler steps; the exponential sweep
itself (`ExpAnnealLR`, from `flair.optim`, not under `src/`) is modelled from
the spec as this opaque schedule, since no claim depends on its values. -/
structure FlrEnv (Ex M : Type) where
  forwardLoss : M → List Ex → Fl
  stepModel : M → ℚ → List Ex → M
  shuffle : List Ex → List Ex
  lrAfter : ℕ → ℚ

/-- One row of `learning_rate.tsv` (`trainer.py` line 398). -/
structure FlrRow where
  itr : ℕ
  lr : ℚ
  loss : Fl
deriving DecidableEq, Repr

/-- The mutable state of the learning-rate sweep.  `processed` counts
iterations entered; `rows` are the log rows written (the iteration that stops
early writes no row). -/
structure FlrState (M : Type) where
  model : M
  bestLoss : Option Fl
  movingAvgLoss : Fl
  rows : List FlrRow
  processed : ℕ
  stopped : Bool

/-- The bookkeeping of `trainer.py` lines 382-390, as a function of the
previous `best_loss` and `moving_avg_loss`, the iteration index and the raw
loss of this iteration.  At iteration 0 the raw loss becomes `best_loss`;
afterwards, with positive smoothing, `moving_avg_loss` absorbs the raw loss
and `loss_item` becomes the bias-corrected average, and when `loss_item`
drops below `best_loss` the *raw* loss (`best_loss = loss`, line 390, the
tensor rather than `loss_item`) becomes the new best.  Returns
`(best_loss, moving_avg_loss, loss_item)`. -/
def flrUpdate (sf : ℚ) (itr : ℕ) (prevBest : Option Fl) (prevMoving : Fl)
    (loss : Fl) : Option Fl × Fl × Fl :=
  if itr = 0 then (some loss, prevMoving, loss)
  else
    let p := if 0 < sf then
        (let mv := Fl.addF (Fl.mulQ sf prevMoving) (Fl.mulQ (1 - sf) loss)
         (mv, Fl.divQ mv (1 - sf ^ (itr + 1))))
      else (prevMoving, loss)
    let best := if Fl.ltF p.2 (prevBest.getD ⟨0, false⟩) then some loss
      else prevBest
    (best, p.1, p.2)

/-- The sweep loop of `find_learning_rate` (`trainer.py` lines 372-398).
Per iteration: loss on the current model, optimizer and scheduler step, the
`flrUpdate` bookkeeping, then — with `stop_early` — the sweep breaks when
`loss_item > 4 * best_loss` or the raw loss is NaN, before writing that
iteration's row. -/
def flrLoop {Ex M : Type} (env : FlrEnv Ex M) (stopEarly : Bool) (sf : ℚ) :
    FlrState M → ℕ → List (List Ex) → FlrState M
  | s, _, [] => s
  | s, itr, b :: rest =>
    -- line 373
    let loss := env.forwardLoss s.model b
    -- lines 375-380
    let m2 := env.stepModel s.model (env.lrAfter itr) b
    let learningRate := env.lrAfter (itr + 1)
    -- lines 382-390
    let upd := flrUpdate sf itr s.bestLoss s.movingAvgLoss loss
    let best := upd.1
    let moving := upd.2.1
    let item := upd.2.2
    -- lines 392-395
    if stopEarly && (Fl.gtF item (Fl.mulQ 4 (best.getD ⟨0, false⟩)) || loss.nan) then
      { model := m2, bestLoss := best, movingAvgLoss := moving, rows := s.rows,
        processed := s.processed + 1, stopped := true }
    else
      -- lines 397-398
      flrLoop env stopEarly sf
        { model := m2, bestLoss := best, movingAvgLoss := moving,
          rows := s.rows ++ [⟨itr, learningRate, item⟩],
          processed := s.processed + 1, stopped := false } (itr + 1) rest

/-- Observable outcome of `find_learning_rate`: the returned path, the log
rows, the final model parameters and device, the final (mutated)
`self.corpus.train`, and how the sweep ended. -/
structure FlrOut (Ex M : Type) where
  path : String
  rows : List FlrRow
  model : M
  device : ℕ
  corpusTrain : List Ex
  processed : ℕ
  stoppedEarly : Bool

/-- `ModelTrainer.find_learning_rate` (`trainer.py` lines 338-407).  The
start and end learning rates are consumed by the optimizer and the external
`ExpAnnealLR` scheduler, both abstracted into `env.lrAfter`. -/
def findLearningRate {Ex M : Type} (env : FlrEnv Ex M) (model0 : M)
    (device0 : ℕ) (corpus : CorpusT Ex) (basePath fileName : String)
    (iterations miniBatchSize : ℕ) (stopEarly : Bool) (sf : ℚ) : FlrOut Ex M :=
  -- lines 352-358: init_output_file — modelled from the spec: creates the
  -- file and returns its path `base_path / file_name`; then the header row
  let path := basePath ++ "/" ++ fileName
  -- lines 362-364: train_data aliases self.corpus.train and is shuffled in
  -- place; the batch list is truncated to `iterations`
  let trainData := env.shuffle corpus.train
  let batches := (listChunks miniBatchSize trainData).take iterations
  -- lines 368-370: snapshot of the model's state and device
  let modelState := model0
  let modelDevice := device0
  -- lines 372-398
  let s := flrLoop env stopEarly sf ⟨model0, none, ⟨0, false⟩, [], 0, false⟩ 0 batches
  -- lines 400-407: restore the snapshot and device, return the log path
  { path := path, rows := s.rows, model := modelState, device := modelDevice,
    corpusTrain := trainData, processed := s.processed, stoppedEarly := s.stopped }

/-- The per-batch loss values of one epoch: the loss of each successive batch,
computed on the model as it evolves under the optimizer steps. -/
def batchLossSeq {Ex M : Type} (env : TrainEnv Ex M) (lr : ℚ) :
    M → List (List Ex) → List ℚ
  | _, [] => []
  | m, b :: rest => env.forwardLoss m b :: batchLossSeq env lr (env.stepModel m lr b) rest

/-- Concrete instantiation data for witnesses and counterexamples. -/
def cTrainEnv : TrainEnv ℕ ℕ where
  forwardLoss := fun _ b => (b.length : ℚ)
  stepModel := fun m _ _ => m
  evalModel := fun _ _ _ => (⟨1, 1, 1, 1⟩, 0)
  shuffle := fun _ l => l.reverse

def cFlrEnv : FlrEnv ℕ ℕ where
  forwardLoss := fun _ b => ⟨(b.length : ℚ), false⟩
  stepModel := fun m _ _ => m
  shuffle := fun l => l.reverse
  lrAfter := fun _ => 1

def cCorpus9 : CorpusT ℕ := ⟨[0, 1], [2], [], false, []⟩

def cTrainer9 : TrainerState ℕ ℕ := ⟨0, cCorpus9, 0, 10000, none, none⟩

def cCfg9 : TrainCfg where
  evaluationMetric := .microF1Score
  learningRate := 1
  miniBatchSize := 1
  evalMiniBatchSize := none
  maxEpochs := 1
  annealFactor := 1/2
  patience := 3
  annealAgainstTrainLoss := true
  trainWithDev := true
  monitorTrain := false
  checkpointEnabled := false
  saveFinalModel := true
  annealWithRestarts := false
  testMode := true
  paramSelectionMode := false
  interruptAt := none

/-- C1, the claim's formula (from the spec's words, for comparison): the mean
training loss as the sum over batches of each batch's loss weighted by the
batch's size, divided by the total number of training examples. -/
def specWeightedMeanLoss (batchLossesAndSizes : List (ℚ × ℕ))
    (totalExamples : ℕ) : ℚ :=
  (batchLossesAndSizes.map (fun p => p.1 * (p.2 : ℚ))).sum / (totalExamples : ℚ)

/-- Concrete data for C1: three training examples, batch size 2, no model
update (`stepModel` is the identity), batch loss 4 on the two-element batch
and 1 on the final singleton batch. -/
def cEnvC1 : TrainEnv ℕ ℕ where
  forwardLoss := fun _ b => if b.length = 2 then (4 : ℚ) else 1
  stepModel := fun m _ _ => m
  evalModel := fun _ _ _ => (⟨0, 0, 0, 0⟩, 0)
  shuffle := fun _ l => l

def cStateC1 : LoopState ℕ ℕ := ⟨0, [0, 1, 2], 1, 1, ⟨none, 0⟩, none, [], [], [], 0⟩

def cCfgC1 : TrainCfg where
  evaluationMetric := .microF1Score
  learningRate := 1
  miniBatchSize := 2
  evalMiniBatchSize := none
  maxEpochs := 1
  annealFactor := 1/2
  patience := 3
  annealAgainstTrainLoss := true
  trainWithDev := true
  monitorTrain := false
  checkpointEnabled := false
  saveFinalModel := false
  annealWithRestarts := false
  testMode := true
  paramSelectionMode := true
  interruptAt := none

def cCfgC2 : TrainCfg where
  evaluationMetric := .microF1Score
  learningRate := 1
  miniBatchSize := 1
  evalMiniBatchSize := none
  maxEpochs := 1
  annealFactor := 1/2
  patience := 3
  annealAgainstTrainLoss := false
  trainWithDev := false
  monitorTrain := false
  checkpointEnabled := false
  saveFinalModel := true
  annealWithRestarts := false
  testMode := true
  paramSelectionMode := false
  interruptAt := none

def cStateC2 : LoopState ℕ ℕ := ⟨0, [0], 1, 1, ⟨none, 0⟩, none, [], [], [], 0⟩

/-- The file (if any) that an event creates or writes to. -/
def evWritesFile : Ev → Option String
  | .createFile n => some n
  | .writeHeader n => some n
  | .writeTestTsv => some "test.tsv"
  | .lossRow _ _ _ _ => some "loss.tsv"
  | .saveCheckpoint _ => some "checkpoint.pt"
  | .saveBestModel _ => some "best-model.pt"
  | .saveFinalModel => some "final-model.pt"
  | .extractWeights _ => some "weights.txt"
  | _ => none

def cCfgC7 : TrainCfg := { cCfgC2 with paramSelectionMode := true }

def cCfgC4 : TrainCfg := { cCfgC2 with learningRate := 1/20000 }

/-- The model at the start of sweep iteration `k` (the accumulated effect of
the first `k` optimizer steps). -/
def flrModelSeq {Ex M : Type} (env : FlrEnv Ex M) (m0 : M)
    (bs : List (List Ex)) : ℕ → M
  | 0 => m0
  | k + 1 => env.stepModel (flrModelSeq env m0 bs k) (env.lrAfter k) (bs.getD k [])

/-- The raw loss of sweep iteration `k`. -/
def flrRawLoss {Ex M : Type} (env : FlrEnv Ex M) (m0 : M)
    (bs : List (List Ex)) (k : ℕ) : Fl :=
  env.forwardLoss (flrModelSeq env m0 bs k) (bs.getD k [])

/-- `moving_avg_loss` after iteration `k` (iteration 0 leaves it untouched). -/
def flrMovingAfter {Ex M : Type} (env : FlrEnv Ex M) (m0 : M)
    (bs : List (List Ex)) (sf : ℚ) : ℕ → Fl
  | 0 => ⟨0, false⟩
  | k + 1 =>
    if 0 < sf then
      Fl.addF (Fl.mulQ sf (flrMovingAfter env m0 bs sf k))
        (Fl.mulQ (1 - sf) (flrRawLoss env m0 bs (k + 1)))
    else flrMovingAfter env m0 bs sf k

/-- `loss_item` of iteration `k`: the raw loss at iteration 0, afterwards the
bias-corrected moving average (or the raw loss when smoothing is off). -/
def flrItem {Ex M : Type} (env : FlrEnv Ex M) (m0 : M) (bs : List (List Ex))
    (sf : ℚ) : ℕ → Fl
  | 0 => flrRawLoss env m0 bs 0
  | j + 1 =>
    if 0 < sf then
      Fl.divQ (flrMovingAfter env m0 bs sf (j + 1)) (1 - sf ^ (j + 1 + 1))
    else flrRawLoss env m0 bs (j + 1)

/-- `best_loss` after iteration `k`'s update: the first raw loss, thereafter
replaced by the current iteration's *raw* loss whenever `loss_item` drops
below it (the source's line 390). -/
def flrBestAfter {Ex M : Type} (env : FlrEnv Ex M) (m0 : M)
    (bs : List (List Ex)) (sf : ℚ) : ℕ → Fl
  | 0 => flrRawLoss env m0 bs 0
  | k + 1 =>
    if Fl.ltF (flrItem env m0 bs sf (k + 1)) (flrBestAfter env m0 bs sf k) then
      flrRawLoss env m0 bs (k + 1)
    else flrBestAfter env m0 bs sf k

/-- The divergence-stop condition of iteration `k`
(`trainer.py` line 392). -/
def flrStopAt {Ex M : Type} (env : FlrEnv Ex M) (m0 : M) (bs : List (List Ex))
    (sf : ℚ) (stopEarly : Bool) (k : ℕ) : Bool :=
  stopEarly && (Fl.gtF (flrItem env m0 bs sf k)
    (Fl.mulQ 4 (flrBestAfter env m0 bs sf k)) || (flrRawLoss env m0 bs k).nan)

/-- How many of the next `r` iterations run, starting at iteration `k`: all
of them, or up to and including the first whose stop condition fires. -/
def flrCountFrom {Ex M : Type} (env : FlrEnv Ex M) (m0 : M)
    (bs : List (List Ex)) (sf : ℚ) (stopEarly : Bool) : ℕ → ℕ → ℕ
  | 0, _ => 0
  | r + 1, k =>
    if flrStopAt env m0 bs sf stopEarly k then 1
    else 1 + flrCountFrom env m0 bs sf stopEarly r (k + 1)

/-- Whether one of the next `r` iterations, starting at `k`, stops early. -/
def flrStoppedFrom {Ex M : Type} (env : FlrEnv Ex M) (m0 : M)
    (bs : List (List Ex)) (sf : ℚ) (stopEarly : Bool) : ℕ → ℕ → Bool
  | 0, _ => false
  | r + 1, k =>
    if flrStopAt env m0 bs sf stopEarly k then true
    else flrStoppedFrom env m0 bs sf stopEarly r (k + 1)

/-- Concrete data for C5: four singleton batches with raw losses
100, 3, 16, 1/4 and smoothing factor 1/2. -/
def cFlrEnvC5 : FlrEnv ℕ ℕ where
  forwardLoss := fun _ b =>
    match b with
    | [0] => ⟨100, false⟩
    | [1] => ⟨3, false⟩
    | [2] => ⟨16, false⟩
    | _ => ⟨1/4, false⟩
  stepModel := fun m _ _ => m
  shuffle := fun l => l
  lrAfter := fun _ => 1

def cCorpusC5 : CorpusT ℕ := ⟨[0, 1, 2, 3], [], [], false, []⟩

/-! ## Theorems -/

lemma getD_of_drop_cons {α : Type} (l : List α) (n : ℕ) (b : α) (rest : List α)
    (d : α) (h : l.drop n = b :: rest) : l.getD n d = b := by
  have h0 : l[n]? = some b := by
    have h2 := List.getElem?_drop l n 0
    rw [Nat.add_zero] at h2
    rw [← h2, h]
    simp
  simp [List.getD_eq_getElem?_getD, h0]

lemma runBatches_totalLoss_eq {Ex M : Type} (env : TrainEnv Ex M) (ps : Bool)
    (e n mo : ℕ) (lr : ℚ) :
    ∀ (bs : List (List Ex)) (m : M) (bn : ℕ) (acc : ℚ) (seen : ℕ),
      (runBatches env ps e n mo lr m bn acc seen bs).totalLoss
        = acc + (batchLossSeq env lr m bs).sum := by
  intro bs
  induction bs with
  | nil => intro m bn acc seen; simp [runBatches, batchLossSeq]
  | cons b rest ih =>
    intro m bn acc seen
    simp only [runBatches, batchLossSeq, List.sum_cons, ih]
    ring

/-- C3 counterexample: a trainer restored from a checkpoint with saved epoch
index 1 and `max_epochs = 2` iterates epochs `[1, 2]` — two further epochs —
whereas the claim predicts it executes only epochs 1 through `max_epochs - 1`,
i.e. at most `max_epochs - e = 1` further epoch. -/
theorem resume_epoch_count_counterexample :
    trainEpochIndices 1 2 = [1, 2] ∧ ¬((trainEpochIndices 1 2).length ≤ 2 - 1) := by
  decide

/-- C3 (amended): the epoch loop of `train()` iterates
`range(0 + self.epoch, max_epochs + self.epoch)`, i.e. for a session restored
from a checkpoint with saved epoch `e` it executes epochs `e` through
`e + max_epochs - 1` — exactly `max_epochs` further epochs absent a terminal
condition, not `max_epochs - e`. -/
theorem epoch_loop_runs_maxEpochs_from_resume_point {Ex M : Type}
    (ckpt : CheckpointT M) (corpus : CorpusT Ex) (maxEpochs : ℕ) :
    trainEpochIndices (loadFromCheckpoint ckpt corpus).epoch maxEpochs =
      List.range' ckpt.epoch maxEpochs ∧
    (trainEpochIndices (loadFromCheckpoint ckpt corpus).epoch maxEpochs).length
      = maxEpochs := by
  constructor <;> simp [trainEpochIndices, pyRange, loadFromCheckpoint]

/-- C6: `find_learning_rate` always restores the model's parameter values and
device to their values from before the call (the snapshot taken at lines
368-369 is loaded back at lines 400-401, on the interface's snapshot/restore
semantics), and returns the path `base_path / file_name` of the
learning-rate log, whether or not the sweep stopped early. -/
theorem flr_restores_model_and_returns_log_path {Ex M : Type} (env : FlrEnv Ex M)
    (model0 : M) (device0 : ℕ) (corpus : CorpusT Ex) (basePath fileName : String)
    (iterations miniBatchSize : ℕ) (stopEarly : Bool) (sf : ℚ) :
    (findLearningRate env model0 device0 corpus basePath fileName iterations
        miniBatchSize stopEarly sf).model = model0 ∧
    (findLearningRate env model0 device0 corpus basePath fileName iterations
        miniBatchSize stopEarly sf).device = device0 ∧
    (findLearningRate env model0 device0 corpus basePath fileName iterations
        miniBatchSize stopEarly sf).path = basePath ++ "/" ++ fileName :=
  ⟨rfl, rfl, rfl⟩

/-- C10: every terminating `train()` call — the configuration quantifies over
every interrupt scenario (`cfg.interruptAt`), epoch exhaustion, and the
learning-rate floor — returns a dictionary with exactly the keys
`test_score`, `dev_score_history`, `train_loss_history`, `dev_loss_history`;
in particular a `KeyboardInterrupt` raised inside the epoch loop is consumed
by the handler and the same dictionary is still returned. -/
theorem train_returns_fixed_keys_and_catches_interrupt {Ex M : Type}
    (env : TrainEnv Ex M) (t : TrainerState Ex M) (cfg : TrainCfg)
    (pre : Option M) :
    (train env t cfg pre).dict.map Prod.fst =
      ["test_score", "dev_score_history", "train_loss_history",
       "dev_loss_history"] := rfl

lemma epochBody_trainData_testMode {Ex M : Type} (env : TrainEnv Ex M)
    (cfg : TrainCfg) (mode : AnnealMode) (evalBS : ℕ) (dev test : List Ex)
    (s : LoopState Ex M) (e : ℕ) (lr : ℚ) (hTM : cfg.testMode = true) :
    (epochBody env cfg mode evalBS dev test s e lr).state.trainData = s.trainData := by
  simp [epochBody, epochTd, hTM]

lemma runEpochs_trainData_testMode {Ex M : Type} (env : TrainEnv Ex M)
    (cfg : TrainCfg) (mode : AnnealMode) (evalBS : ℕ) (dev test : List Ex)
    (hTM : cfg.testMode = true) :
    ∀ (es : List ℕ) (s : LoopState Ex M),
      (runEpochs env cfg mode evalBS dev test s es).state.trainData = s.trainData := by
  intro es
  induction es with
  | nil => intro s; rfl
  | cons e rest ih =>
    intro s
    simp only [runEpochs]
    split
    · rfl
    · split
      · split <;> rfl
      · rw [ih]
        rw [epochBody_trainData_testMode]
        · split <;> rfl
        · exact hTM

/-- C9 counterexample: with `train_with_dev` enabled (here in deterministic
test mode, so no shuffling is even involved), `train()` extends
`self.corpus.train` in place with the dev split: the training split `[0, 1]`
ends up as `[0, 1, 2]` after the call, falsifying the claim that the corpus's
own training split is never reordered or extended. -/
theorem corpus_train_mutation_counterexample :
    (train cTrainEnv cTrainer9 cCfg9 none).corpusTrain = [0, 1, 2] ∧
    cTrainer9.corpus.train = [0, 1] ∧ ([0, 1, 2] : List ℕ) ≠ [0, 1] := by
  refine ⟨?_, by decide, by decide⟩
  show (train cTrainEnv cTrainer9 cCfg9 none).corpusTrain = _
  simp only [train]
  rw [runEpochs_trainData_testMode]
  · decide
  · decide

/-- C9 (amended): batches are built from `train_data`, which aliases
`self.corpus.train` rather than copying it.  In deterministic test mode (no
shuffle calls) the split after `train()` equals the original extended in
place by the dev split when `train_with_dev` is set; and
`find_learning_rate` replaces `self.corpus.train` by an in-place shuffled
reordering of itself. -/
theorem train_mutates_corpus_train_in_place {Ex M : Type} (env : TrainEnv Ex M)
    (t : TrainerState Ex M) (cfg : TrainCfg) (pre : Option M)
    (fenv : FlrEnv Ex M) (m0 : M) (d0 : ℕ) (corpus : CorpusT Ex)
    (bp fn : String) (iters mbs : ℕ) (se : Bool) (sf : ℚ)
    (hTM : cfg.testMode = true) :
    (train env t cfg pre).corpusTrain =
      t.corpus.train ++ (if cfg.trainWithDev then t.corpus.dev else []) ∧
    (findLearningRate fenv m0 d0 corpus bp fn iters mbs se sf).corpusTrain =
      fenv.shuffle corpus.train := by
  constructor
  · show (train env t cfg pre).corpusTrain = _
    simp only [train]
    rw [runEpochs_trainData_testMode]
    exact hTM
  · rfl

/-- C9 witness. -/
theorem train_mutates_corpus_train_in_place_witness :
    (train cTrainEnv cTrainer9 cCfg9 none).corpusTrain =
      cTrainer9.corpus.train ++
        (if cCfg9.trainWithDev then cTrainer9.corpus.dev else []) ∧
    (findLearningRate cFlrEnv 0 0 cCorpus9 "out" "learning_rate.tsv" 2 1 true
        (49/50)).corpusTrain = cFlrEnv.shuffle cCorpus9.train :=
  train_mutates_corpus_train_in_place cTrainEnv cTrainer9 cCfg9 none cFlrEnv 0 0
    cCorpus9 "out" "learning_rate.tsv" 2 1 true (49/50) rfl

/-- C1 (amended): the mean training loss recorded for an epoch is the
*unweighted* sum of the per-batch losses divided by the total number of
training examples (`train_loss += loss.item()` at line 157 carries no batch
size factor; line 168 divides by `len(train_data)`). -/
theorem epoch_mean_train_loss_is_unweighted_sum_div_total {Ex M : Type}
    (env : TrainEnv Ex M) (cfg : TrainCfg) (mode : AnnealMode) (evalBS : ℕ)
    (dev test : List Ex) (s : LoopState Ex M) (e : ℕ) (lr : ℚ)
    (hMon : cfg.monitorTrain = false) :
    (epochBody env cfg mode evalBS dev test s e lr).state.trainLossHistory =
      s.trainLossHistory ++
        [(batchLossSeq env lr s.model (listChunks cfg.miniBatchSize
            (if cfg.testMode then s.trainData
             else env.shuffle s.shuffleCount s.trainData))).sum /
          (((if cfg.testMode then s.trainData
             else env.shuffle s.shuffleCount s.trainData).length : ℚ))] := by
  simp only [epochBody, epochTrainLoss, epochTrainEval, hMon, Bool.false_eq_true,
    if_false, epochMeanLoss, epochBr, epochTd]
  rw [runBatches_totalLoss_eq]
  simp

/-- C1 counterexample: with batch losses 4 (size 2) and 1 (size 1) over 3
training examples, the code records `(4 + 1) / 3 = 5/3` as the epoch's mean
training loss, while the claim's size-weighted formula gives
`(4·2 + 1·1) / 3 = 3`. -/
theorem trainLoss_unweighted_counterexample :
    (listChunks 2 [0, 1, 2]).map List.length = [2, 1] ∧
    batchLossSeq cEnvC1 1 0 (listChunks 2 [0, 1, 2]) = [4, 1] ∧
    (epochBody cEnvC1 cCfgC1 AnnealMode.min 2 [] [] cStateC1 0 1).state.trainLossHistory
      = [5/3] ∧
    specWeightedMeanLoss [(4, 2), (1, 1)] 3 = 3 ∧
    ((5 : ℚ)/3) ≠ 3 := by
  refine ⟨by decide, ?_, ?_, ?_, by norm_num⟩
  · norm_num [batchLossSeq, listChunks, chunksGo, cEnvC1]
  · norm_num [epochBody, epochTrainLoss, epochTrainEval, epochMeanLoss, epochBr,
      epochTd, runBatches, listChunks, chunksGo, cEnvC1, cStateC1, cCfgC1]
  · norm_num [specWeightedMeanLoss]

/-- C1 witness. -/
theorem epoch_mean_train_loss_is_unweighted_sum_div_total_witness :
    (epochBody cEnvC1 cCfgC1 AnnealMode.min 2 [] [] cStateC1 0 1).state.trainLossHistory =
      cStateC1.trainLossHistory ++
        [(batchLossSeq cEnvC1 1 cStateC1.model (listChunks cCfgC1.miniBatchSize
            (if cCfgC1.testMode then cStateC1.trainData
             else cEnvC1.shuffle cStateC1.shuffleCount cStateC1.trainData))).sum /
          (((if cCfgC1.testMode then cStateC1.trainData
             else cEnvC1.shuffle cStateC1.shuffleCount cStateC1.trainData).length : ℚ))] :=
  epoch_mean_train_loss_is_unweighted_sum_div_total cEnvC1 cCfgC1 AnnealMode.min 2
    [] [] cStateC1 0 1 rfl

lemma schedStep_best_of_improve (mode : AnnealMode) (f : ℚ) (p : ℕ)
    (s : SchedState) (lr score : ℚ) (h : isImprovement mode score s.best = true) :
    ((schedStep mode f p s lr score).1).best = some score := by
  simp [schedStep, h]

lemma schedStep_best_of_not_improve (mode : AnnealMode) (f : ℚ) (p : ℕ)
    (s : SchedState) (lr score : ℚ) (h : isImprovement mode score s.best = false) :
    ((schedStep mode f p s lr score).1).best = s.best := by
  simp only [schedStep, h, Bool.false_eq_true, if_false]
  split <;> rfl

lemma isImprovement_self_false (mode : AnnealMode) (score : ℚ) :
    isImprovement mode score (some score) = false := by
  cases mode <;> simp [isImprovement]

lemma runBatches_events_mem {Ex M : Type} (env : TrainEnv Ex M) (ps : Bool)
    (e n mo : ℕ) (lr : ℚ) :
    ∀ (bs : List (List Ex)) (m : M) (bn : ℕ) (acc : ℚ) (seen : ℕ) (ev : Ev),
      ev ∈ (runBatches env ps e n mo lr m bn acc seen bs).events →
      (∃ b, ev = Ev.batchDone e b) ∨ (∃ b, ev = Ev.progressLog e b) ∨
      (ps = false ∧ ∃ i, ev = Ev.extractWeights i) := by
  intro bs
  induction bs with
  | nil => intro m bn acc seen ev h; simp [runBatches] at h
  | cons b rest ih =>
    intro m bn acc seen ev h
    simp only [runBatches, List.mem_append, List.mem_cons,
      List.not_mem_nil, or_false] at h
    rcases h with (h | h) | h
    · exact Or.inl ⟨bn, h⟩
    · by_cases h1 : bn % mo = 0
      · simp only [h1, if_true, List.mem_append, List.mem_cons,
          List.not_mem_nil, or_false] at h
        rcases h with h | h
        · exact Or.inr (Or.inl ⟨bn, h⟩)
        · by_cases h2 : ps
          · simp [h2] at h
          · simp only [h2, Bool.not_false, if_true, List.mem_cons,
              List.not_mem_nil, or_false] at h
            exact Or.inr (Or.inr ⟨by simpa using h2, _, h⟩)
      · simp [h1] at h
    · exact ih _ _ _ _ _ h

lemma calcEval_events_mem {Ex M : Type} (env : TrainEnv Ex M) (m : M)
    (name : String) (ds : List Ex) (ebs : ℕ) (w : Bool) (ev : Ev)
    (h : ev ∈ (calcEvalResultsFor env m name ds ebs w).2) :
    ev = Ev.evalRun name ∨ ev = Ev.writeTestTsv := by
  simp only [calcEvalResultsFor, List.mem_append, List.mem_cons,
    List.not_mem_nil, or_false] at h
  rcases h with h | h
  · exact Or.inl h
  · rcases w with _ | _
    · simp at h
    · simp only [if_true, List.mem_cons, List.not_mem_nil, or_false] at h
      exact Or.inr h

lemma epochEvalEvents_mem {Ex M : Type} (env : TrainEnv Ex M) (cfg : TrainCfg)
    (evalBS : ℕ) (dev test : List Ex) (s : LoopState Ex M) (e : ℕ) (lr : ℚ)
    (ev : Ev) (h : ev ∈ epochEvalEvents env cfg evalBS dev test s e lr) :
    (∃ n, ev = Ev.evalRun n) ∨ ev = Ev.writeTestTsv := by
  simp only [epochEvalEvents, List.mem_append] at h
  rcases h with (h | h) | h
  · by_cases hc : cfg.monitorTrain = true
    · simp only [epochTrainEval, hc, if_true] at h
      rcases calcEval_events_mem _ _ _ _ _ _ _ h with h2 | h2
      · exact Or.inl ⟨_, h2⟩
      · exact Or.inr h2
    · simp [epochTrainEval, hc] at h
  · by_cases hc : cfg.trainWithDev = true
    · simp [epochDevEval, hc] at h
    · simp only [epochDevEval, Bool.not_eq_true] at h
      rw [if_pos] at h
      · rcases calcEval_events_mem _ _ _ _ _ _ _ h with h2 | h2
        · exact Or.inl ⟨_, h2⟩
        · exact Or.inr h2
      · simp [Bool.not_eq_true] at hc ⊢
        exact hc
  · by_cases hc : (!cfg.paramSelectionMode && !test.isEmpty) = true
    · simp only [epochTestEval, hc, if_true] at h
      rcases calcEval_events_mem _ _ _ _ _ _ _ h with h2 | h2
      · exact Or.inl ⟨_, h2⟩
      · exact Or.inr h2
    · simp [epochTestEval, hc] at h

lemma epochBody_saveBest_mem {Ex M : Type} (env : TrainEnv Ex M) (cfg : TrainCfg)
    (mode : AnnealMode) (evalBS : ℕ) (dev test : List Ex) (s : LoopState Ex M)
    (e : ℕ) (lr : ℚ) (hTwd : cfg.trainWithDev = false)
    (hPs : cfg.paramSelectionMode = false) :
    (Ev.saveBestModel e ∈ (epochBody env cfg mode evalBS dev test s e lr).events) ↔
      some (epochBody env cfg mode evalBS dev test s e lr).currentScore =
        (epochBody env cfg mode evalBS dev test s e lr).state.sched.best := by
  show (Ev.saveBestModel e ∈ (epochBody env cfg mode evalBS dev test s e lr).events) ↔
    some (epochCurrentScore env cfg evalBS dev s e lr) =
      (epochSchedStep env cfg mode evalBS dev s e lr).1.best
  simp only [epochBody, List.mem_append]
  constructor
  · intro h
    rcases h with (((h | h) | h) | h) | h
    · exfalso
      simp only [epochBr] at h
      rcases runBatches_events_mem _ _ _ _ _ _ _ _ _ _ _ _ h with
        ⟨_, hc⟩ | ⟨_, hc⟩ | ⟨_, _, hc⟩ <;> exact Ev.noConfusion hc
    · exfalso
      rcases epochEvalEvents_mem _ _ _ _ _ _ _ _ _ h with ⟨_, hc⟩ | hc <;>
        exact Ev.noConfusion hc
    · exfalso
      simp [hPs] at h
    · exfalso
      revert h
      split <;> intro h <;> simp at h
    · by_cases hsb : epochSaveBest env cfg mode evalBS dev s e lr = true
      · simp only [epochSaveBest, hTwd, hPs, Bool.not_false, Bool.and_self,
          Bool.true_and, decide_eq_true_eq] at hsb
        exact hsb
      · simp [hsb] at h
  · intro h
    refine Or.inr ?_
    have hsb : epochSaveBest env cfg mode evalBS dev s e lr = true := by
      simp [epochSaveBest, hTwd, hPs, h]
    simp [hsb]

/-- C2: with dev-based selection active (`train_with_dev` and
`param_selection_mode` both false), the best-model artifact is persisted in
exactly those epochs whose scheduling score equals (by value equality) the
scheduler's best as read after the step; consequently every epoch whose score
the scheduler records as a new best triggers a save, and an epoch whose score
ties the previously recorded best also triggers a save.  (The plateau
scheduler itself is modelled from the spec, `flair.optim`/torch being outside
`src/`.) -/
theorem best_model_saved_iff_score_equals_scheduler_best {Ex M : Type}
    (env : TrainEnv Ex M) (cfg : TrainCfg) (mode : AnnealMode) (evalBS : ℕ)
    (dev test : List Ex) (s : LoopState Ex M) (e : ℕ) (lr : ℚ)
    (hTwd : cfg.trainWithDev = false) (hPs : cfg.paramSelectionMode = false) :
    ((Ev.saveBestModel e ∈ (epochBody env cfg mode evalBS dev test s e lr).events) ↔
      some (epochBody env cfg mode evalBS dev test s e lr).currentScore =
        (epochBody env cfg mode evalBS dev test s e lr).state.sched.best) ∧
    (isImprovement mode (epochBody env cfg mode evalBS dev test s e lr).currentScore
        s.sched.best = true →
      Ev.saveBestModel e ∈ (epochBody env cfg mode evalBS dev test s e lr).events) ∧
    (some (epochBody env cfg mode evalBS dev test s e lr).currentScore = s.sched.best →
      Ev.saveBestModel e ∈ (epochBody env cfg mode evalBS dev test s e lr).events) := by
  have hmem := epochBody_saveBest_mem env cfg mode evalBS dev test s e lr hTwd hPs
  refine ⟨hmem, ?_, ?_⟩
  · intro himp
    refine hmem.mpr ?_
    have hb : (epochBody env cfg mode evalBS dev test s e lr).state.sched.best
        = some ((epochBody env cfg mode evalBS dev test s e lr).currentScore) := by
      show (epochSchedStep env cfg mode evalBS dev s e lr).1.best = _
      exact schedStep_best_of_improve mode cfg.annealFactor cfg.patience s.sched lr _ himp
    rw [hb]
  · intro htie
    refine hmem.mpr ?_
    have hni : isImprovement mode
        (epochBody env cfg mode evalBS dev test s e lr).currentScore
        s.sched.best = false := by
      rw [← htie]
      exact isImprovement_self_false mode _
    have hb : (epochBody env cfg mode evalBS dev test s e lr).state.sched.best
        = s.sched.best := by
      show (epochSchedStep env cfg mode evalBS dev s e lr).1.best = _
      exact schedStep_best_of_not_improve mode cfg.annealFactor cfg.patience s.sched lr _ hni
    rw [hb, htie]

/-- C2 witness. -/
theorem best_model_saved_iff_score_equals_scheduler_best_witness :
    Ev.saveBestModel 0 ∈
      (epochBody cTrainEnv cCfgC2 AnnealMode.max 1 [5] [] cStateC2 0 1).events :=
  (best_model_saved_iff_score_equals_scheduler_best cTrainEnv cCfgC2 AnnealMode.max
    1 [5] [] cStateC2 0 1 rfl rfl).2.1 (by decide)

lemma epochBody_events_mem {Ex M : Type} (env : TrainEnv Ex M) (cfg : TrainCfg)
    (mode : AnnealMode) (evalBS : ℕ) (dev test : List Ex) (s : LoopState Ex M)
    (e : ℕ) (lr : ℚ) (ev : Ev)
    (h : ev ∈ (epochBody env cfg mode evalBS dev test s e lr).events) :
    (∃ b, ev = Ev.batchDone e b) ∨ (∃ b, ev = Ev.progressLog e b) ∨
    (∃ i, ev = Ev.extractWeights i) ∨ (∃ n, ev = Ev.evalRun n) ∨
    ev = Ev.writeTestTsv ∨ (∃ bad l tl, ev = Ev.lossRow e bad l tl) ∨
    ev = Ev.saveCheckpoint (e + 1) ∨ ev = Ev.saveBestModel e := by
  simp only [epochBody, List.mem_append] at h
  rcases h with (((h | h) | h) | h) | h
  · simp only [epochBr] at h
    rcases runBatches_events_mem _ _ _ _ _ _ _ _ _ _ _ _ h with h | h | ⟨_, h⟩
    · exact Or.inl h
    · exact Or.inr (Or.inl h)
    · exact Or.inr (Or.inr (Or.inl h))
  · rcases epochEvalEvents_mem _ _ _ _ _ _ _ _ _ h with h | h
    · exact Or.inr (Or.inr (Or.inr (Or.inl h)))
    · exact Or.inr (Or.inr (Or.inr (Or.inr (Or.inl h))))
  · revert h
    split
    · intro h
      simp only [List.mem_cons, List.not_mem_nil, or_false] at h
      exact Or.inr (Or.inr (Or.inr (Or.inr (Or.inr (Or.inl ⟨_, _, _, h⟩)))))
    · intro h
      simp at h
  · revert h
    split
    · intro h
      simp only [List.mem_cons, List.not_mem_nil, or_false] at h
      exact Or.inr (Or.inr (Or.inr (Or.inr (Or.inr (Or.inr (Or.inl h))))))
    · intro h
      simp at h
  · revert h
    split
    · intro h
      simp only [List.mem_cons, List.not_mem_nil, or_false] at h
      exact Or.inr (Or.inr (Or.inr (Or.inr (Or.inr (Or.inr (Or.inr h))))))
    · intro h
      simp at h

lemma runEpochs_events_mem {Ex M : Type} (env : TrainEnv Ex M) (cfg : TrainCfg)
    (mode : AnnealMode) (evalBS : ℕ) (dev test : List Ex) :
    ∀ (es : List ℕ) (s : LoopState Ex M) (ev : Ev),
      ev ∈ (runEpochs env cfg mode evalBS dev test s es).events →
      ∃ e, e ∈ es ∧ ((∃ l, ev = Ev.epochStart e l) ∨ ev = Ev.loadBestModel e ∨
        ev = Ev.lrTooSmall e ∨ (∃ b, ev = Ev.batchDone e b) ∨
        (∃ b, ev = Ev.progressLog e b) ∨ (∃ i, ev = Ev.extractWeights i) ∨
        (∃ n, ev = Ev.evalRun n) ∨ ev = Ev.writeTestTsv ∨
        (∃ bad l tl, ev = Ev.lossRow e bad l tl) ∨ ev = Ev.saveCheckpoint (e + 1) ∨
        ev = Ev.saveBestModel e) := by
  intro es
  induction es with
  | nil => intro s ev h; simp [runEpochs] at h
  | cons e rest ih =>
    intro s ev h
    by_cases hi : cfg.interruptAt = some e
    · simp [runEpochs, hi] at h
    · simp only [runEpochs, hi, if_false] at h
      by_cases hf : s.lr < lrFloor
      · simp only [hf, if_true, List.mem_append, List.mem_cons,
          List.not_mem_nil, or_false] at h
        rcases h with (h | h) | h
        · exact ⟨e, List.mem_cons_self e rest, Or.inl ⟨_, h⟩⟩
        · revert h
          split
          · intro h
            simp only [List.mem_cons, List.not_mem_nil, or_false] at h
            exact ⟨e, List.mem_cons_self e rest, Or.inr (Or.inl h)⟩
          · intro h
            simp at h
        · exact ⟨e, List.mem_cons_self e rest, Or.inr (Or.inr (Or.inl h))⟩
      · simp only [hf, if_false, List.mem_append, List.mem_cons,
          List.not_mem_nil, or_false] at h
        rcases h with ((h | h) | h) | h
        · exact ⟨e, List.mem_cons_self e rest, Or.inl ⟨_, h⟩⟩
        · revert h
          split
          · intro h
            simp only [List.mem_cons, List.not_mem_nil, or_false] at h
            exact ⟨e, List.mem_cons_self e rest, Or.inr (Or.inl h)⟩
          · intro h
            simp at h
        · rcases epochBody_events_mem _ _ _ _ _ _ _ _ _ _ h with
            h | h | h | h | h | h | h | h
          · exact ⟨e, List.mem_cons_self e rest,
              Or.inr (Or.inr (Or.inr (Or.inl h)))⟩
          · exact ⟨e, List.mem_cons_self e rest,
              Or.inr (Or.inr (Or.inr (Or.inr (Or.inl h))))⟩
          · exact ⟨e, List.mem_cons_self e rest,
              Or.inr (Or.inr (Or.inr (Or.inr (Or.inr (Or.inl h)))))⟩
          · exact ⟨e, List.mem_cons_self e rest,
              Or.inr (Or.inr (Or.inr (Or.inr (Or.inr (Or.inr (Or.inl h))))))⟩
          · exact ⟨e, List.mem_cons_self e rest,
              Or.inr (Or.inr (Or.inr (Or.inr (Or.inr (Or.inr (Or.inr (Or.inl h)))))))⟩
          · exact ⟨e, List.mem_cons_self e rest, Or.inr (Or.inr (Or.inr (Or.inr
              (Or.inr (Or.inr (Or.inr (Or.inr (Or.inl h))))))))⟩
          · exact ⟨e, List.mem_cons_self e rest, Or.inr (Or.inr (Or.inr (Or.inr
              (Or.inr (Or.inr (Or.inr (Or.inr (Or.inr (Or.inl h)))))))))⟩
          · exact ⟨e, List.mem_cons_self e rest, Or.inr (Or.inr (Or.inr (Or.inr
              (Or.inr (Or.inr (Or.inr (Or.inr (Or.inr (Or.inr h)))))))))⟩
        · rcases ih _ _ h with ⟨e2, he2, hshape⟩
          exact ⟨e2, List.mem_cons_of_mem e he2, hshape⟩

lemma mem_ite_list {α : Type} {a : α} {c : Prop} [Decidable c] {l : List α}
    (h : a ∈ (if c then l else [])) : c ∧ a ∈ l := by
  revert h
  split
  · intro h
    exact ⟨by assumption, h⟩
  · intro h
    simp at h

lemma mem_ite_lists {α : Type} {a : α} {c : Prop} [Decidable c] {l1 l2 : List α}
    (h : a ∈ (if c then l1 else l2)) : a ∈ l1 ∨ a ∈ l2 := by
  revert h
  split <;> intro h
  · exact Or.inl h
  · exact Or.inr h

/-- C8: when the corpus's test split is empty, `train()` never invokes
`final_test` (no `finalTestRun` event occurs) and the returned dictionary's
`test_score` entry is exactly 0 (its absence is logged, not raised). -/
theorem empty_test_split_score_zero_no_final_test {Ex M : Type}
    (env : TrainEnv Ex M) (t : TrainerState Ex M) (cfg : TrainCfg)
    (pre : Option M) (h : t.corpus.test = []) :
    (train env t cfg pre).dict.head? = some ("test_score", DVal.num 0) ∧
    Ev.noTestDataLog ∈ (train env t cfg pre).events ∧
    Ev.finalTestRun ∉ (train env t cfg pre).events := by
  refine ⟨?_, ?_, ?_⟩
  · simp [train, trainReturnDict, h]
  · simp [train, h]
  · intro hmem
    simp only [train, h, List.isEmpty_nil, Bool.not_true, Bool.false_eq_true,
      if_false, List.mem_append] at hmem
    rcases hmem with (((hmem | hmem) | hmem) | hmem) | hmem
    · simp at hmem
    · obtain ⟨_, hmem⟩ := mem_ite_list hmem
      simp at hmem
    · rcases runEpochs_events_mem _ _ _ _ _ _ _ _ _ hmem with ⟨e2, _, hs⟩
      rcases hs with ⟨_, hc⟩ | hc | hc | ⟨_, hc⟩ | ⟨_, hc⟩ | ⟨_, hc⟩ |
        ⟨_, hc⟩ | hc | ⟨_, _, _, hc⟩ | hc | hc <;> exact Ev.noConfusion hc
    · rcases mem_ite_lists hmem with hmem | hmem <;>
        · obtain ⟨_, hmem⟩ := mem_ite_list hmem
          simp at hmem
    · simp at hmem

lemma calcEval_events_mem_noTsv {Ex M : Type} (env : TrainEnv Ex M) (m : M)
    (name : String) (ds : List Ex) (ebs : ℕ) (ev : Ev)
    (h : ev ∈ (calcEvalResultsFor env m name ds ebs false).2) :
    ev = Ev.evalRun name := by
  simp [calcEvalResultsFor] at h
  exact h

lemma epochEvalEvents_mem_paramSel {Ex M : Type} (env : TrainEnv Ex M)
    (cfg : TrainCfg) (evalBS : ℕ) (dev test : List Ex) (s : LoopState Ex M)
    (e : ℕ) (lr : ℚ) (ev : Ev) (hPs : cfg.paramSelectionMode = true)
    (h : ev ∈ epochEvalEvents env cfg evalBS dev test s e lr) :
    ∃ n, ev = Ev.evalRun n := by
  simp only [epochEvalEvents, List.mem_append] at h
  rcases h with (h | h) | h
  · by_cases hc : cfg.monitorTrain = true
    · simp only [epochTrainEval, hc, if_true] at h
      exact ⟨_, calcEval_events_mem_noTsv _ _ _ _ _ _ h⟩
    · simp [epochTrainEval, hc] at h
  · by_cases hc : cfg.trainWithDev = true
    · simp [epochDevEval, hc] at h
    · simp only [epochDevEval, Bool.not_eq_true] at h
      rw [if_pos] at h
      · exact ⟨_, calcEval_events_mem_noTsv _ _ _ _ _ _ h⟩
      · simp [Bool.not_eq_true] at hc ⊢
        exact hc
  · simp [epochTestEval, hPs] at h

lemma epochSaveBest_paramSel {Ex M : Type} (env : TrainEnv Ex M) (cfg : TrainCfg)
    (mode : AnnealMode) (evalBS : ℕ) (dev : List Ex) (s : LoopState Ex M)
    (e : ℕ) (lr : ℚ) (hPs : cfg.paramSelectionMode = true) :
    epochSaveBest env cfg mode evalBS dev s e lr = false := by
  simp [epochSaveBest, hPs]

lemma epochBody_events_mem_paramSel {Ex M : Type} (env : TrainEnv Ex M)
    (cfg : TrainCfg) (mode : AnnealMode) (evalBS : ℕ) (dev test : List Ex)
    (s : LoopState Ex M) (e : ℕ) (lr : ℚ) (ev : Ev)
    (hPs : cfg.paramSelectionMode = true)
    (h : ev ∈ (epochBody env cfg mode evalBS dev test s e lr).events) :
    (∃ b, ev = Ev.batchDone e b) ∨ (∃ b, ev = Ev.progressLog e b) ∨
    (∃ n, ev = Ev.evalRun n) := by
  simp only [epochBody, List.mem_append] at h
  rcases h with (((h | h) | h) | h) | h
  · simp only [epochBr] at h
    rcases runBatches_events_mem _ _ _ _ _ _ _ _ _ _ _ _ h with h | h | ⟨hc, _⟩
    · exact Or.inl h
    · exact Or.inr (Or.inl h)
    · rw [hPs] at hc
      exact Bool.noConfusion hc
  · exact Or.inr (Or.inr (epochEvalEvents_mem_paramSel _ _ _ _ _ _ _ _ _ hPs h))
  · simp [hPs] at h
  · simp [hPs] at h
  · rw [epochSaveBest_paramSel _ _ _ _ _ _ _ _ hPs] at h
    simp at h

lemma runEpochs_events_mem_paramSel {Ex M : Type} (env : TrainEnv Ex M)
    (cfg : TrainCfg) (mode : AnnealMode) (evalBS : ℕ) (dev test : List Ex)
    (hPs : cfg.paramSelectionMode = true) :
    ∀ (es : List ℕ) (s : LoopState Ex M) (ev : Ev),
      ev ∈ (runEpochs env cfg mode evalBS dev test s es).events →
      (∃ e l, ev = Ev.epochStart e l) ∨ (∃ e, ev = Ev.loadBestModel e) ∨
      (∃ e, ev = Ev.lrTooSmall e) ∨ (∃ e b, ev = Ev.batchDone e b) ∨
      (∃ e b, ev = Ev.progressLog e b) ∨ (∃ n, ev = Ev.evalRun n) := by
  intro es
  induction es with
  | nil => intro s ev h; simp [runEpochs] at h
  | cons e rest ih =>
    intro s ev h
    by_cases hi : cfg.interruptAt = some e
    · simp [runEpochs, hi] at h
    · simp only [runEpochs, hi, if_false] at h
      by_cases hf : s.lr < lrFloor
      · simp only [hf, if_true, List.mem_append, List.mem_cons,
          List.not_mem_nil, or_false] at h
        rcases h with (h | h) | h
        · exact Or.inl ⟨e, _, h⟩
        · revert h
          split
          · intro h
            simp only [List.mem_cons, List.not_mem_nil, or_false] at h
            exact Or.inr (Or.inl ⟨e, h⟩)
          · intro h
            simp at h
        · exact Or.inr (Or.inr (Or.inl ⟨e, h⟩))
      · simp only [hf, if_false, List.mem_append, List.mem_cons,
          List.not_mem_nil, or_false] at h
        rcases h with ((h | h) | h) | h
        · exact Or.inl ⟨e, _, h⟩
        · revert h
          split
          · intro h
            simp only [List.mem_cons, List.not_mem_nil, or_false] at h
            exact Or.inr (Or.inl ⟨e, h⟩)
          · intro h
            simp at h
        · rcases epochBody_events_mem_paramSel _ _ _ _ _ _ _ _ _ _ hPs h with
            ⟨b, h⟩ | ⟨b, h⟩ | ⟨n, h⟩
          · exact Or.inr (Or.inr (Or.inr (Or.inl ⟨e, b, h⟩)))
          · exact Or.inr (Or.inr (Or.inr (Or.inr (Or.inl ⟨e, b, h⟩))))
          · exact Or.inr (Or.inr (Or.inr (Or.inr (Or.inr ⟨n, h⟩))))
        · exact ih _ _ h

lemma epochBody_devHist_len {Ex M : Type} (env : TrainEnv Ex M) (cfg : TrainCfg)
    (mode : AnnealMode) (evalBS : ℕ) (dev test : List Ex) (s : LoopState Ex M)
    (e : ℕ) (lr : ℚ) (hTwd : cfg.trainWithDev = false) :
    (epochBody env cfg mode evalBS dev test s e lr).state.devScoreHistory.length
      = s.devScoreHistory.length + 1 := by
  simp [epochBody, epochDevEval, hTwd]

lemma runEpochs_devHist_len {Ex M : Type} (env : TrainEnv Ex M) (cfg : TrainCfg)
    (mode : AnnealMode) (evalBS : ℕ) (dev test : List Ex)
    (hTwd : cfg.trainWithDev = false) :
    ∀ (es : List ℕ) (s : LoopState Ex M),
      (runEpochs env cfg mode evalBS dev test s es).state.devScoreHistory.length
        = s.devScoreHistory.length +
          (runEpochs env cfg mode evalBS dev test s es).completed := by
  intro es
  induction es with
  | nil => intro s; rfl
  | cons e rest ih =>
    intro s
    simp only [runEpochs]
    split
    · rfl
    · split
      · split <;> rfl
      · rw [ih]
        rw [epochBody_devHist_len]
        · split <;> (simp only []; omega)
        · exact hTwd

/-- C7 counterexample: even with `param_selection_mode=true`, `train()` still
attaches the `training.log` file handler (`trainer.py` line 66 runs before
the `param_selection_mode` guard), so "no files at all" is false: a file
(`training.log`) is created. -/
theorem param_selection_creates_training_log_counterexample :
    cCfgC7.paramSelectionMode = true ∧
    Ev.createFile "training.log" ∈ (train cTrainEnv cTrainer9 cCfgC7 none).events ∧
    evWritesFile (Ev.createFile "training.log") = some "training.log" := by
  refine ⟨rfl, ?_, rfl⟩
  simp [train]

/-- C7 (amended): with `param_selection_mode=true` (and the corpus not a
multi-corpus, whose final test phase would still write `test.tsv`), the only
file `train()` touches is `training.log` — no `loss.tsv`, no model artifacts,
no checkpoint, no weight snapshots — while the returned dictionary still
carries a `dev_score_history` with exactly one entry per completed epoch
(when `train_with_dev` is false). -/
theorem param_selection_no_files_except_training_log {Ex M : Type}
    (env : TrainEnv Ex M) (t : TrainerState Ex M) (cfg : TrainCfg)
    (pre : Option M) (hPs : cfg.paramSelectionMode = true)
    (hMulti : t.corpus.isMulti = false) (hTwd : cfg.trainWithDev = false) :
    (∀ ev ∈ (train env t cfg pre).events, ∀ f, evWritesFile ev = some f →
      f = "training.log") ∧
    (∃ ts ds tl dl, (train env t cfg pre).dict = trainReturnDict ts ds tl dl ∧
      ds.length = (train env t cfg pre).completedEpochs) := by
  constructor
  · intro ev hmem f hf
    simp only [train, hPs, Bool.not_true, Bool.and_false, Bool.false_eq_true,
      if_false, ite_self, List.nil_append, List.append_nil,
      List.mem_append] at hmem
    rcases hmem with (hmem | hmem) | hmem
    · simp only [List.mem_cons, List.not_mem_nil, or_false] at hmem
      rw [hmem] at hf
      simp only [evWritesFile] at hf
      exact (Option.some_injective _ hf).symm
    · rcases runEpochs_events_mem_paramSel _ _ _ _ _ _ hPs _ _ _ hmem with
        ⟨_, _, hc⟩ | ⟨_, hc⟩ | ⟨_, hc⟩ | ⟨_, _, hc⟩ | ⟨_, _, hc⟩ | ⟨_, hc⟩ <;>
        · rw [hc] at hf
          simp [evWritesFile] at hf
    · split at hmem
      · simp only [finalTest, hMulti, Bool.false_eq_true, if_false,
          List.append_nil, List.mem_cons, List.not_mem_nil, or_false] at hmem
        rw [hmem] at hf
        simp [evWritesFile] at hf
      · simp only [List.mem_cons, List.not_mem_nil, or_false] at hmem
        rw [hmem] at hf
        simp [evWritesFile] at hf
  · refine ⟨_, _, _, _, rfl, ?_⟩
    show (runEpochs env cfg _ _ _ _ _ _).state.devScoreHistory.length = _
    rw [runEpochs_devHist_len env cfg _ _ _ _ hTwd]
    simp only [List.length_nil, Nat.zero_add]
    rfl

/-- C7 witness. -/
theorem param_selection_no_files_except_training_log_witness :
    (∀ ev ∈ (train cTrainEnv cTrainer9 cCfgC7 none).events, ∀ f,
      evWritesFile ev = some f → f = "training.log") ∧
    (∃ ts ds tl dl, (train cTrainEnv cTrainer9 cCfgC7 none).dict =
        trainReturnDict ts ds tl dl ∧
      ds.length = (train cTrainEnv cTrainer9 cCfgC7 none).completedEpochs) :=
  param_selection_no_files_except_training_log cTrainEnv cTrainer9 cCfgC7 none
    rfl rfl rfl

lemma runEpochs_epochStart_mem {Ex M : Type} (env : TrainEnv Ex M)
    (cfg : TrainCfg) (mode : AnnealMode) (evalBS : ℕ) (dev test : List Ex)
    (es : List ℕ) (s : LoopState Ex M) (e : ℕ) (l : ℚ)
    (h : Ev.epochStart e l ∈ (runEpochs env cfg mode evalBS dev test s es).events) :
    e ∈ es := by
  rcases runEpochs_events_mem _ _ _ _ _ _ _ _ _ h with ⟨e3, he3, hs⟩
  rcases hs with ⟨l2, hc⟩ | hc | hc | ⟨_, hc⟩ | ⟨_, hc⟩ | ⟨_, hc⟩ |
    ⟨_, hc⟩ | hc | ⟨_, _, _, hc⟩ | hc | hc
  · injection hc with h1 h2
    rw [h1]
    exact he3
  all_goals exact Ev.noConfusion hc

lemma runEpochs_lr_floor_stops {Ex M : Type} (env : TrainEnv Ex M)
    (cfg : TrainCfg) (mode : AnnealMode) (evalBS : ℕ) (dev test : List Ex) :
    ∀ (es : List ℕ), es.Pairwise (· < ·) →
    ∀ (s : LoopState Ex M) (e : ℕ) (l : ℚ),
      Ev.epochStart e l ∈ (runEpochs env cfg mode evalBS dev test s es).events →
      l < lrFloor →
      ∀ e2, e ≤ e2 →
        (∀ b, Ev.batchDone e2 b ∉ (runEpochs env cfg mode evalBS dev test s es).events) ∧
        (∀ bad lr2 tl,
          Ev.lossRow e2 bad lr2 tl ∉ (runEpochs env cfg mode evalBS dev test s es).events) := by
  intro es
  induction es with
  | nil =>
    intro _ s e l hmem _ _ _
    simp [runEpochs] at hmem
  | cons x rest ih =>
    intro hpw s e l hmem hlow e2 he2
    by_cases hi : cfg.interruptAt = some x
    · simp [runEpochs, hi] at hmem
    · by_cases hf : s.lr < lrFloor
      · constructor
        · intro b hb
          simp only [runEpochs, hi, if_false, if_pos hf, List.mem_append,
            List.mem_cons, List.not_mem_nil, or_false] at hb
          rcases hb with (hb | hb) | hb
          · exact Ev.noConfusion hb
          · revert hb
            split <;> intro hb <;> simp at hb
          · exact Ev.noConfusion hb
        · intro bad lr2 tl hb
          simp only [runEpochs, hi, if_false, if_pos hf, List.mem_append,
            List.mem_cons, List.not_mem_nil, or_false] at hb
          rcases hb with (hb | hb) | hb
          · exact Ev.noConfusion hb
          · revert hb
            split <;> intro hb <;> simp at hb
          · exact Ev.noConfusion hb
      · have hxlt := (List.pairwise_cons.mp hpw).1
        have hpw2 := (List.pairwise_cons.mp hpw).2
        simp only [runEpochs, hi, if_false, if_neg hf, List.mem_append,
          List.mem_cons, List.not_mem_nil, or_false] at hmem
        rcases hmem with ((hmem | hmem) | hmem) | hmem
        · injection hmem with h1 h2
          exact absurd (h2 ▸ hlow) hf
        · revert hmem
          split <;> intro hmem <;> simp at hmem
        · rcases epochBody_events_mem _ _ _ _ _ _ _ _ _ _ hmem with
            ⟨_, hc⟩ | ⟨_, hc⟩ | ⟨_, hc⟩ | ⟨_, hc⟩ | hc | ⟨_, _, _, hc⟩ | hc | hc <;>
            exact Ev.noConfusion hc
        · have hein : e ∈ rest := runEpochs_epochStart_mem _ _ _ _ _ _ _ _ _ _ hmem
          have hxe2 : x < e2 := lt_of_lt_of_le (hxlt e hein) he2
          have hIH := ih hpw2 _ e l hmem hlow e2 he2
          constructor
          · intro b hb
            simp only [runEpochs, hi, if_false, if_neg hf, List.mem_append,
              List.mem_cons, List.not_mem_nil, or_false] at hb
            rcases hb with ((hb | hb) | hb) | hb
            · exact Ev.noConfusion hb
            · revert hb
              split <;> intro hb <;> simp at hb
            · rcases epochBody_events_mem _ _ _ _ _ _ _ _ _ _ hb with
                ⟨b2, hc⟩ | ⟨_, hc⟩ | ⟨_, hc⟩ | ⟨_, hc⟩ | hc | ⟨_, _, _, hc⟩ | hc | hc
              · injection hc with hc1 hc2
                exact absurd hc1 (Nat.ne_of_gt hxe2)
              all_goals exact Ev.noConfusion hc
            · exact hIH.1 b hb
          · intro bad lr2 tl hb
            simp only [runEpochs, hi, if_false, if_neg hf, List.mem_append,
              List.mem_cons, List.not_mem_nil, or_false] at hb
            rcases hb with ((hb | hb) | hb) | hb
            · exact Ev.noConfusion hb
            · revert hb
              split <;> intro hb <;> simp at hb
            · rcases epochBody_events_mem _ _ _ _ _ _ _ _ _ _ hb with
                ⟨_, hc⟩ | ⟨_, hc⟩ | ⟨_, hc⟩ | ⟨_, hc⟩ | hc | ⟨bad2, lr3, tl3, hc⟩ | hc | hc
              · exact Ev.noConfusion hc
              · exact Ev.noConfusion hc
              · exact Ev.noConfusion hc
              · exact Ev.noConfusion hc
              · exact Ev.noConfusion hc
              · injection hc with hc1 hc2
                exact absurd hc1 (Nat.ne_of_gt hxe2)
              · exact Ev.noConfusion hc
              · exact Ev.noConfusion hc
            · exact hIH.2 bad lr2 tl hb

/-- C4: once the learning rate read at the start of an epoch is below the
0.0001 floor, training stops before processing any batch of that epoch: no
batch of that or any later epoch is processed, and no `loss.tsv` row for that
or any later epoch is written. -/
theorem lr_below_floor_stops_training {Ex M : Type} (env : TrainEnv Ex M)
    (t : TrainerState Ex M) (cfg : TrainCfg) (pre : Option M) (e : ℕ) (l : ℚ)
    (hmem : Ev.epochStart e l ∈ (train env t cfg pre).events)
    (hlow : l < lrFloor) :
    ∀ e2, e ≤ e2 →
      (∀ b, Ev.batchDone e2 b ∉ (train env t cfg pre).events) ∧
      (∀ bad lr2 tl, Ev.lossRow e2 bad lr2 tl ∉ (train env t cfg pre).events) := by
  intro e2 he2
  have hpw : (trainEpochIndices t.epoch cfg.maxEpochs).Pairwise (· < ·) := by
    have h1 : trainEpochIndices t.epoch cfg.maxEpochs
        = List.range' t.epoch cfg.maxEpochs := by
      simp [trainEpochIndices, pyRange]
    rw [h1]
    exact List.pairwise_lt_range' _ _
  simp only [train, List.mem_append] at hmem
  rcases hmem with (((hmem | hmem) | hmem) | hmem) | hmem
  · simp at hmem
  · obtain ⟨_, hmem⟩ := mem_ite_list hmem
    simp at hmem
  · refine ⟨?_, ?_⟩
    · intro b hb
      simp only [train, List.mem_append] at hb
      rcases hb with (((hb | hb) | hb) | hb) | hb
      · simp at hb
      · obtain ⟨_, hb⟩ := mem_ite_list hb
        simp at hb
      · exact (runEpochs_lr_floor_stops env cfg _ _ _ _ _ hpw _ e l hmem hlow
          e2 he2).1 b hb
      · rcases mem_ite_lists hb with hb | hb <;>
          · obtain ⟨_, hb⟩ := mem_ite_list hb
            simp at hb
      · split at hb
        · simp only [finalTest] at hb
          simp only [List.mem_append, List.mem_cons, List.not_mem_nil,
            or_false] at hb
          rcases hb with hb | hb
          · exact Ev.noConfusion hb
          · obtain ⟨_, hb⟩ := mem_ite_list hb
            rcases List.mem_flatMap.mp hb with ⟨sc, _, hb2⟩
            simp at hb2
        · simp at hb
    · intro bad lr2 tl hb
      simp only [train, List.mem_append] at hb
      rcases hb with (((hb | hb) | hb) | hb) | hb
      · simp at hb
      · obtain ⟨_, hb⟩ := mem_ite_list hb
        simp at hb
      · exact (runEpochs_lr_floor_stops env cfg _ _ _ _ _ hpw _ e l hmem hlow
          e2 he2).2 bad lr2 tl hb
      · rcases mem_ite_lists hb with hb | hb <;>
          · obtain ⟨_, hb⟩ := mem_ite_list hb
            simp at hb
      · split at hb
        · simp only [finalTest] at hb
          simp only [List.mem_append, List.mem_cons, List.not_mem_nil,
            or_false] at hb
          rcases hb with hb | hb
          · exact Ev.noConfusion hb
          · obtain ⟨_, hb⟩ := mem_ite_list hb
            rcases List.mem_flatMap.mp hb with ⟨sc, _, hb2⟩
            simp at hb2
        · simp at hb
  · rcases mem_ite_lists hmem with hmem | hmem <;>
      · obtain ⟨_, hmem⟩ := mem_ite_list hmem
        simp at hmem
  · split at hmem
    · simp only [finalTest] at hmem
      simp only [List.mem_append, List.mem_cons, List.not_mem_nil,
        or_false] at hmem
      rcases hmem with hmem | hmem
      · exact Ev.noConfusion hmem
      · obtain ⟨_, hmem⟩ := mem_ite_list hmem
        rcases List.mem_flatMap.mp hmem with ⟨sc, _, hmem2⟩
        simp at hmem2
    · simp at hmem

/-- C4 witness. -/
theorem lr_below_floor_stops_training_witness :
    Ev.epochStart 0 (1/20000) ∈ (train cTrainEnv cTrainer9 cCfgC4 none).events ∧
    (∀ b, Ev.batchDone 0 b ∉ (train cTrainEnv cTrainer9 cCfgC4 none).events) := by
  have hmem : Ev.epochStart 0 (1/20000) ∈
      (train cTrainEnv cTrainer9 cCfgC4 none).events := by
    have h0 : trainEpochIndices cTrainer9.epoch cCfgC4.maxEpochs = [0] := by decide
    norm_num [train, h0, runEpochs, cTrainer9, cCfgC4, cCfgC2, cCorpus9, lrFloor]
    simp
  exact ⟨hmem, (lr_below_floor_stops_training cTrainEnv cTrainer9 cCfgC4 none 0
    (1/20000) hmem (by norm_num [lrFloor]) 0 (le_refl 0)).1⟩

lemma flrUpdate_spec {Ex M : Type} (env : FlrEnv Ex M) (m0 : M)
    (bs : List (List Ex)) (sf : ℚ) (k : ℕ) :
    flrUpdate sf k (if k = 0 then none else some (flrBestAfter env m0 bs sf (k - 1)))
        (flrMovingAfter env m0 bs sf (k - 1)) (flrRawLoss env m0 bs k)
      = (some (flrBestAfter env m0 bs sf k), flrMovingAfter env m0 bs sf k,
         flrItem env m0 bs sf k) := by
  cases k with
  | zero =>
    simp [flrUpdate, flrBestAfter, flrItem]
  | succ j =>
    simp only [flrUpdate, Nat.succ_ne_zero, if_false, Nat.succ_sub_one]
    by_cases hsf : 0 < sf
    · simp only [if_pos hsf]
      have hmv : Fl.addF (Fl.mulQ sf (flrMovingAfter env m0 bs sf j))
          (Fl.mulQ (1 - sf) (flrRawLoss env m0 bs (j + 1)))
          = flrMovingAfter env m0 bs sf (j + 1) := by
        rw [flrMovingAfter, if_pos hsf]
      rw [hmv]
      have hit : Fl.divQ (flrMovingAfter env m0 bs sf (j + 1)) (1 - sf ^ (j + 1 + 1))
          = flrItem env m0 bs sf (j + 1) := by
        rw [flrItem, if_pos hsf]
      rw [hit]
      simp only [Option.getD_some]
      rw [flrBestAfter]
      split <;> rfl
    · simp only [if_neg hsf]
      have hmv : flrMovingAfter env m0 bs sf j = flrMovingAfter env m0 bs sf (j + 1) := by
        rw [flrMovingAfter, if_neg hsf]
      have hit : flrItem env m0 bs sf (j + 1) = flrRawLoss env m0 bs (j + 1) := by
        rw [flrItem, if_neg hsf]
      rw [hmv]
      simp only [Option.getD_some]
      rw [flrBestAfter, hit]
      split <;> rfl

lemma flrLoop_spec {Ex M : Type} (env : FlrEnv Ex M) (stopEarly : Bool) (sf : ℚ)
    (m0 : M) (bs : List (List Ex)) :
    ∀ (rest : List (List Ex)) (k : ℕ) (s : FlrState M),
      rest = bs.drop k →
      s.model = flrModelSeq env m0 bs k →
      s.movingAvgLoss = flrMovingAfter env m0 bs sf (k - 1) →
      s.bestLoss = (if k = 0 then none else some (flrBestAfter env m0 bs sf (k - 1))) →
      s.stopped = false →
      (flrLoop env stopEarly sf s k rest).processed
          = s.processed + flrCountFrom env m0 bs sf stopEarly rest.length k ∧
      (flrLoop env stopEarly sf s k rest).stopped
          = flrStoppedFrom env m0 bs sf stopEarly rest.length k := by
  intro rest
  induction rest with
  | nil =>
    intro k s hdrop hm hmv hbst hst
    simp [flrLoop, flrCountFrom, flrStoppedFrom, hst]
  | cons b rest2 ih =>
    intro k s hdrop hm hmv hbst hst
    have hb : bs.getD k [] = b := getD_of_drop_cons bs k b rest2 [] hdrop.symm
    have hdrop2 : rest2 = bs.drop (k + 1) := by
      have ht := List.tail_drop bs k
      rw [← hdrop] at ht
      simpa using ht
    have hraw : env.forwardLoss s.model b = flrRawLoss env m0 bs k := by
      rw [hm, ← hb, flrRawLoss]
    have hupd : flrUpdate sf k s.bestLoss s.movingAvgLoss (flrRawLoss env m0 bs k)
        = (some (flrBestAfter env m0 bs sf k), flrMovingAfter env m0 bs sf k,
           flrItem env m0 bs sf k) := by
      rw [hmv, hbst, flrUpdate_spec]
    have hm2 : env.stepModel s.model (env.lrAfter k) b
        = flrModelSeq env m0 bs (k + 1) := by
      rw [hm, ← hb, flrModelSeq]
    simp only [flrLoop, hupd, hraw, hm2]
    simp only [Option.getD_some, List.length_cons]
    by_cases hstop : flrStopAt env m0 bs sf stopEarly k = true
    · rw [if_pos (show (stopEarly && ((flrItem env m0 bs sf k).gtF
        (Fl.mulQ 4 (flrBestAfter env m0 bs sf k)) || (flrRawLoss env m0 bs k).nan))
          = true from hstop)]
      constructor
      · rw [flrCountFrom, if_pos hstop]
      · rw [flrStoppedFrom, if_pos hstop]
    · rw [if_neg (show ¬(stopEarly && ((flrItem env m0 bs sf k).gtF
        (Fl.mulQ 4 (flrBestAfter env m0 bs sf k)) || (flrRawLoss env m0 bs k).nan))
          = true from hstop)]
      obtain ⟨ihp, ihs⟩ := ih (k + 1)
        { model := flrModelSeq env m0 bs (k + 1)
          bestLoss := some (flrBestAfter env m0 bs sf k)
          movingAvgLoss := flrMovingAfter env m0 bs sf k
          rows := s.rows ++ [⟨k, env.lrAfter (k + 1), flrItem env m0 bs sf k⟩]
          processed := s.processed + 1
          stopped := false }
        hdrop2 rfl (by simp) (by simp) rfl
      constructor
      · rw [ihp, flrCountFrom, if_neg hstop]
        dsimp only
        omega
      · rw [ihs, flrStoppedFrom, if_neg hstop]

lemma flrCountFrom_of_no_stop {Ex M : Type} (env : FlrEnv Ex M) (m0 : M)
    (bs : List (List Ex)) (sf : ℚ) (stopEarly : Bool) :
    ∀ (r k : ℕ), flrStoppedFrom env m0 bs sf stopEarly r k = false →
      flrCountFrom env m0 bs sf stopEarly r k = r := by
  intro r
  induction r with
  | zero => intro k _; rfl
  | succ r ih =>
    intro k h
    rw [flrStoppedFrom] at h
    rw [flrCountFrom]
    by_cases hs : flrStopAt env m0 bs sf stopEarly k = true
    · rw [if_pos hs] at h
      exact absurd h (by simp)
    · rw [if_neg hs] at h
      rw [if_neg hs, ih (k + 1) h]
      omega

/-- C5 (amended): `find_learning_rate` processes exactly
`min(iterations, available_batches)` mini-batches unless it stops early, and
with `stop_early` it terminates at exactly the first iteration whose stop
condition fires: the current loss value (the raw loss at iteration 0, the
bias-corrected smoothed loss afterwards) exceeds 4x the recorded best, or
the raw loss is NaN — where the recorded best starts as the first raw loss
and is thereafter replaced by the current iteration's *raw* (not smoothed)
loss whenever the smoothed loss drops below it. -/
theorem flr_stop_characterization {Ex M : Type} (env : FlrEnv Ex M) (model0 : M)
    (device0 : ℕ) (corpus : CorpusT Ex) (basePath fileName : String)
    (iterations miniBatchSize : ℕ) (stopEarly : Bool) (sf : ℚ)
    (bs : List (List Ex))
    (hbs : bs = (listChunks miniBatchSize (env.shuffle corpus.train)).take iterations) :
    (findLearningRate env model0 device0 corpus basePath fileName iterations
        miniBatchSize stopEarly sf).processed
      = flrCountFrom env model0 bs sf stopEarly bs.length 0 ∧
    (findLearningRate env model0 device0 corpus basePath fileName iterations
        miniBatchSize stopEarly sf).stoppedEarly
      = flrStoppedFrom env model0 bs sf stopEarly bs.length 0 ∧
    (flrStoppedFrom env model0 bs sf stopEarly bs.length 0 = false →
      (findLearningRate env model0 device0 corpus basePath fileName iterations
          miniBatchSize stopEarly sf).processed
        = min iterations (listChunks miniBatchSize (env.shuffle corpus.train)).length) := by
  subst hbs
  obtain ⟨hp, hs⟩ := flrLoop_spec env stopEarly sf model0
    ((listChunks miniBatchSize (env.shuffle corpus.train)).take iterations)
    ((listChunks miniBatchSize (env.shuffle corpus.train)).take iterations) 0
    ⟨model0, none, ⟨0, false⟩, [], 0, false⟩
    (List.drop_zero _).symm rfl rfl rfl rfl
  refine ⟨?_, ?_, ?_⟩
  · show (flrLoop env stopEarly sf ⟨model0, none, ⟨0, false⟩, [], 0, false⟩ 0
      ((listChunks miniBatchSize (env.shuffle corpus.train)).take iterations)).processed = _
    rw [hp]
    simp
  · show (flrLoop env stopEarly sf ⟨model0, none, ⟨0, false⟩, [], 0, false⟩ 0
      ((listChunks miniBatchSize (env.shuffle corpus.train)).take iterations)).stopped = _
    rw [hs]
  · intro hns
    have hcnt := flrCountFrom_of_no_stop env model0
      ((listChunks miniBatchSize (env.shuffle corpus.train)).take iterations) sf
      stopEarly _ 0 hns
    show (flrLoop env stopEarly sf ⟨model0, none, ⟨0, false⟩, [], 0, false⟩ 0
      ((listChunks miniBatchSize (env.shuffle corpus.train)).take iterations)).processed = _
    rw [hp, hcnt]
    simp [List.length_take]

/-- C5 counterexample: running the sweep on raw losses 100, 3, 16, 1/4 with
smoothing 1/2 produces the smoothed `loss_item` values 100, 2, 10, 144/31
and never stops early — although at iteration 2 the smoothed loss 10 exceeds
4x the smallest smoothed loss seen so far (2, from iteration 1), where the
claim says the sweep terminates exactly then.  (The code compares against
`best_loss = 3`, the *raw* loss stored at iteration 1 by line 390, and
10 < 4 * 3.) -/
theorem flr_stop_rule_counterexample :
    (findLearningRate cFlrEnvC5 0 0 cCorpusC5 "out" "learning_rate.tsv" 4 1 true
      (1/2)).stoppedEarly = false ∧
    (findLearningRate cFlrEnvC5 0 0 cCorpusC5 "out" "learning_rate.tsv" 4 1 true
      (1/2)).processed = 4 ∧
    ((findLearningRate cFlrEnvC5 0 0 cCorpusC5 "out" "learning_rate.tsv" 4 1 true
      (1/2)).rows.map (fun r => r.loss.val)) = [100, 2, 10, 24/5] ∧
    min (100 : ℚ) 2 = 2 ∧ (10 : ℚ) > 4 * 2 := by
  refine ⟨?_, ?_, ?_, by norm_num, by norm_num⟩ <;>
    norm_num [findLearningRate, flrLoop, flrUpdate, listChunks, chunksGo,
      cFlrEnvC5, cCorpusC5, Fl.addF, Fl.mulQ, Fl.divQ, Fl.ltF, Fl.gtF]

/-- C5 witness. -/
theorem flr_stop_characterization_witness :
    (findLearningRate cFlrEnvC5 0 0 cCorpusC5 "out" "learning_rate.tsv" 4 1 true
        (1/2)).processed
      = flrCountFrom cFlrEnvC5 0
          ((listChunks 1 (cFlrEnvC5.shuffle cCorpusC5.train)).take 4) (1/2) true
          ((listChunks 1 (cFlrEnvC5.shuffle cCorpusC5.train)).take 4).length 0 ∧
    (findLearningRate cFlrEnvC5 0 0 cCorpusC5 "out" "learning_rate.tsv" 4 1 true
        (1/2)).stoppedEarly
      = flrStoppedFrom cFlrEnvC5 0
          ((listChunks 1 (cFlrEnvC5.shuffle cCorpusC5.train)).take 4) (1/2) true
          ((listChunks 1 (cFlrEnvC5.shuffle cCorpusC5.train)).take 4).length 0 ∧
    (flrStoppedFrom cFlrEnvC5 0
        ((listChunks 1 (cFlrEnvC5.shuffle cCorpusC5.train)).take 4) (1/2) true
        ((listChunks 1 (cFlrEnvC5.shuffle cCorpusC5.train)).take 4).length 0 = false →
      (findLearningRate cFlrEnvC5 0 0 cCorpusC5 "out" "learning_rate.tsv" 4 1 true
          (1/2)).processed
        = min 4 (listChunks 1 (cFlrEnvC5.shuffle cCorpusC5.train)).length) :=
  flr_stop_characterization cFlrEnvC5 0 0 cCorpusC5 "out" "learning_rate.tsv" 4 1
    true (1/2) ((listChunks 1 (cFlrEnvC5.shuffle cCorpusC5.train)).take 4) rfl

/-- C8 witness. -/
theorem empty_test_split_score_zero_no_final_test_witness :
    (train cTrainEnv cTrainer9 cCfg9 none).dict.head?
        = some ("test_score", DVal.num 0) ∧
    Ev.noTestDataLog ∈ (train cTrainEnv cTrainer9 cCfg9 none).events ∧
    Ev.finalTestRun ∉ (train cTrainEnv cTrainer9 cCfg9 none).events :=
  empty_test_split_score_zero_no_final_test cTrainEnv cTrainer9 cCfg9 none rfl
